import Mathlib

/-!
Verification of the splittea expense-sharing bot (src/bot.rs, src/db.rs,
src/controller.rs) against its natural-language specification.

Monetary amounts in the source are rust_decimal Decimal values: a 96-bit
integer mantissa together with a scale (number of fractional decimal
digits, at most 28).  The structure Dec below models a Decimal as an
unbounded integer mantissa plus a scale.  Addition, subtraction,
comparison and Ord::min are exact in rust_decimal whenever no 96-bit
overflow occurs; the model is exact always, hence faithful on the
non-overflowing domain used throughout.  Division is modelled by
Dec.div below, which documents its own fidelity domain.
-/

/-- Largest mantissa representable by rust_decimal, 2 ^ 96 - 1. -/
def maxMantissa : Nat := 79228162514264337593543950335

/-- Model of rust_decimal Decimal: numeric value mantissa / 10 ^ scale. -/
structure Dec where
  mantissa : Int
  scale : Nat
deriving DecidableEq

namespace Dec

/-- Decimal::ZERO, also Decimal::from(0). -/
def zero : Dec := ⟨0, 0⟩

/-- Decimal::from(n) for a nonnegative integer n. -/
def ofNat (n : Nat) : Dec := ⟨(n : Int), 0⟩

/-- Numeric value of a Decimal, as a rational number. -/
def toRat (a : Dec) : ℚ := (a.mantissa : ℚ) / (10 : ℚ) ^ a.scale

/-- Mantissa of a rescaled to scale s (used when s is at least a.scale). -/
def rescaleNum (a : Dec) (s : Nat) : Int := a.mantissa * 10 ^ (s - a.scale)

/-- Decimal addition: operands are brought to the larger scale and the
mantissas added, exactly as rust_decimal does absent 96-bit overflow. -/
def add (a b : Dec) : Dec :=
  ⟨a.rescaleNum (max a.scale b.scale) + b.rescaleNum (max a.scale b.scale),
   max a.scale b.scale⟩

/-- Decimal subtraction, by rescaling to the common (larger) scale. -/
def sub (a b : Dec) : Dec :=
  ⟨a.rescaleNum (max a.scale b.scale) - b.rescaleNum (max a.scale b.scale),
   max a.scale b.scale⟩

/-- Value comparison a <= b of Decimals (PartialOrd/Ord on rust_decimal
compares numeric values, independently of representation scale). -/
def le (a b : Dec) : Bool :=
  decide (a.mantissa * 10 ^ b.scale ≤ b.mantissa * 10 ^ a.scale)

/-- Value comparison a < b of Decimals. -/
def blt (a b : Dec) : Bool :=
  decide (a.mantissa * 10 ^ b.scale < b.mantissa * 10 ^ a.scale)

/-- Value equality a == b of Decimals (PartialEq compares values). -/
def beq (a b : Dec) : Bool :=
  decide (a.mantissa * 10 ^ b.scale = b.mantissa * 10 ^ a.scale)

/-- Ord::min on Decimals: the left operand when it is not larger. -/
def min (a b : Dec) : Dec := if a.le b then a else b

/-- Decimal::abs. -/
def abs (a : Dec) : Dec := ⟨|a.mantissa|, a.scale⟩

/-- Model of rust_decimal division.  The exact quotient N / D of the two
values is rounded half-up at 28 fractional digits and returned at scale
28.  This denotes the same numeric value as rust_decimal whenever the
true quotient is exactly representable within precision (rust_decimal
then uses a smaller scale for the same value), and whenever the quotient
is inexact with magnitude small enough that rust_decimal itself keeps 28
fractional digits (magnitude below about 7.9).  Division below is only
applied to a sum of amounts divided by a positive spender count, with
quotients inside this domain.  A zero divisor yields zero (rust_decimal
panics; the source asserts the divisor count is nonzero first). -/
def div (a b : Dec) : Dec :=
  let N : Int := a.mantissa * 10 ^ b.scale
  let D : Int := b.mantissa * 10 ^ a.scale
  if D = 0 then ⟨0, 0⟩
  else ⟨Int.fdiv (2 * (N * 10 ^ 28) + D) (2 * D), 28⟩

end Dec

/-- Value of 10 ^ s is positive in the rationals. -/
lemma ten_pow_pos (s : Nat) : (0 : ℚ) < (10 : ℚ) ^ s := by positivity

lemma Dec.toRat_def (a : Dec) :
    a.toRat = (a.mantissa : ℚ) / (10 : ℚ) ^ a.scale := rfl

/-- Rescaling a mantissa to a larger scale preserves the value. -/
lemma Dec.rescale_toRat (a : Dec) {s : Nat} (h : a.scale ≤ s) :
    ((a.rescaleNum s : ℚ)) / (10 : ℚ) ^ s = a.toRat := by
  unfold Dec.rescaleNum Dec.toRat
  have hs : s - a.scale + a.scale = s := Nat.sub_add_cancel h
  have : (10 : ℚ) ^ s = (10 : ℚ) ^ (s - a.scale) * (10 : ℚ) ^ a.scale := by
    rw [← pow_add, hs]
  rw [this]
  push_cast
  have h1 : ((10 : ℚ) ^ (s - a.scale)) ≠ 0 := ne_of_gt (ten_pow_pos _)
  have h2 : ((10 : ℚ) ^ a.scale) ≠ 0 := ne_of_gt (ten_pow_pos _)
  field_simp
  ring

lemma Dec.toRat_add (a b : Dec) : (a.add b).toRat = a.toRat + b.toRat := by
  unfold Dec.add
  rw [Dec.toRat_def]
  push_cast
  rw [add_div]
  show (a.rescaleNum (max a.scale b.scale) : ℚ) / _ +
      (b.rescaleNum (max a.scale b.scale) : ℚ) / _ = _
  rw [Dec.rescale_toRat a (le_max_left _ _), Dec.rescale_toRat b (le_max_right _ _)]

lemma Dec.toRat_sub (a b : Dec) : (a.sub b).toRat = a.toRat - b.toRat := by
  unfold Dec.sub
  rw [Dec.toRat_def]
  push_cast
  rw [sub_div]
  show (a.rescaleNum (max a.scale b.scale) : ℚ) / _ -
      (b.rescaleNum (max a.scale b.scale) : ℚ) / _ = _
  rw [Dec.rescale_toRat a (le_max_left _ _), Dec.rescale_toRat b (le_max_right _ _)]

lemma Dec.le_iff (a b : Dec) : a.le b = true ↔ a.toRat ≤ b.toRat := by
  unfold Dec.le Dec.toRat
  rw [decide_eq_true_eq, div_le_div_iff₀ (ten_pow_pos _) (ten_pow_pos _)]
  constructor
  · intro h
    exact_mod_cast h
  · intro h
    exact_mod_cast h

lemma Dec.blt_iff (a b : Dec) : a.blt b = true ↔ a.toRat < b.toRat := by
  unfold Dec.blt Dec.toRat
  rw [decide_eq_true_eq, div_lt_div_iff₀ (ten_pow_pos _) (ten_pow_pos _)]
  constructor
  · intro h
    exact_mod_cast h
  · intro h
    exact_mod_cast h

lemma Dec.beq_iff (a b : Dec) : a.beq b = true ↔ a.toRat = b.toRat := by
  unfold Dec.beq Dec.toRat
  rw [decide_eq_true_eq, div_eq_div_iff (ne_of_gt (ten_pow_pos _)) (ne_of_gt (ten_pow_pos _))]
  constructor
  · intro h
    exact_mod_cast h
  · intro h
    exact_mod_cast h

lemma Dec.toRat_min (a b : Dec) : (a.min b).toRat = Min.min a.toRat b.toRat := by
  unfold Dec.min
  by_cases h : a.le b = true
  · rw [if_pos h, min_eq_left ((Dec.le_iff a b).1 h)]
  · have hb : b.toRat ≤ a.toRat := by
      have := (Dec.le_iff a b).not.1 h
      exact le_of_not_le (fun hc => this hc)
    rw [if_neg h, min_eq_right hb]

lemma Dec.beq_zero_iff (a : Dec) : a.beq Dec.zero = true ↔ a.toRat = 0 := by
  rw [Dec.beq_iff]
  show a.toRat = Dec.zero.toRat ↔ _
  have : Dec.zero.toRat = 0 := by
    unfold Dec.zero Dec.toRat
    norm_num
  rw [this]

lemma Dec.toRat_zero : Dec.zero.toRat = 0 := by
  unfold Dec.zero Dec.toRat
  norm_num

example : (Dec.div ⟨10, 0⟩ ⟨3, 0⟩) = ⟨33333333333333333333333333333, 28⟩ := by decide
example : (Dec.div ⟨30, 0⟩ ⟨1, 0⟩) = ⟨300000000000000000000000000000, 28⟩ := by decide
example : (Dec.sub ⟨4, 0⟩ ⟨33333333333333333333333333333, 28⟩)
    = ⟨6666666666666666666666666667, 28⟩ := by decide

/-!
Debt settlement engine, embedded from the body of
receive_group_id_for_expenses_list (src/bot.rs lines 283-406).
-/

/-- One row of the expense table (src/entity/expense.rs, as used by the
settlement code: spender username, owning group and decimal amount,
together with the free-text note). -/
structure ExpenseRow where
  username : String
  groupId : Int
  amount : Dec
  note : String
deriving DecidableEq

/-- One step of the per-user aggregation of bot.rs lines 294-298: the
running HashMap user_spent receives entry(username).or_default() +=
amount.  The map is modelled as an association list in first-insertion
order; the HashMap iteration order used later is an arbitrary
permutation of this list (see the permutation-quantified lemmas). -/
def addSpent (m : List (String × Dec)) (e : ExpenseRow) : List (String × Dec) :=
  if m.any (fun p => p.1 == e.username) then
    m.map (fun p => if p.1 == e.username then (p.1, p.2.add e.amount) else p)
  else m ++ [(e.username, e.amount)]

/-- The user_spent map of bot.rs lines 294-298, one entry per distinct
spender, holding that spender's total. -/
def userSpentOf (es : List ExpenseRow) : List (String × Dec) :=
  es.foldl addSpent []

/-- The overall sum of bot.rs line 301: Decimal sum of all totals. -/
def sumSpent (l : List (String × Dec)) : Dec :=
  (l.map Prod.snd).foldl Dec.add Dec.zero

/-- The mean of bot.rs line 305: sum divided by the number of distinct
spenders, using Decimal division. -/
def meanOf (l : List (String × Dec)) : Dec :=
  (sumSpent l).div (Dec.ofNat l.length)

/-- The user_debt vector of bot.rs lines 308-309: spender paired with
spent minus mean.  Note the source calls this debt although a positive
value means the group owes the user. -/
def userDebtOf (l : List (String × Dec)) : List (String × Dec) :=
  l.map (fun p => (p.1, p.2.sub (meanOf l)))

/-- The Decimal sum checked by the debug_assert of bot.rs line 312. -/
def balanceSumOf (l : List (String × Dec)) : Dec :=
  (((userDebtOf l).map Prod.snd).foldl Dec.add Dec.zero)

/-- The UserDebt records of bot.rs lines 277-281. -/
structure UserDebt where
  username : String
  debt : Dec
deriving DecidableEq

/-- The creditors vector of bot.rs lines 318-335: users with positive
balance, carrying the absolute value, in user_debt order. -/
def creditorsOf (l : List (String × Dec)) : List UserDebt :=
  ((userDebtOf l).filter (fun p => Dec.zero.blt p.2)).map
    (fun p => ⟨p.1, p.2.abs⟩)

/-- The debitors vector of bot.rs lines 318-335: users with negative
balance, carrying the absolute value, in user_debt order. -/
def debitorsOf (l : List (String × Dec)) : List UserDebt :=
  ((userDebtOf l).filter (fun p => p.2.blt Dec.zero)).map
    (fun p => ⟨p.1, p.2.abs⟩)

/-- The order relation used by the sort of bot.rs lines 337-339: a
precedes b when the debt of a is at least the debt of b (the source
comparator is b.debt.cmp(a.debt), a descending sort). -/
def debtGe (a b : UserDebt) : Prop := b.debt.le a.debt = true

instance : DecidableRel debtGe := fun _ _ => instDecidableEqBool _ _

/-- The sort of bot.rs lines 337-339: Rust sort_by is a stable sort, and
a stable sort by a given total preorder is unique, so it is modelled by
insertion sort, which is stable for debtGe: elements are inserted in
original order and an element that ties goes before the already placed
later elements it ties with, keeping the earlier element first. -/
def sortByDebt (l : List UserDebt) : List UserDebt :=
  l.insertionSort debtGe

/-- A transfer: debtor username, creditor username, amount. -/
abbrev Transfer := String × String × Dec

/-- The matching loop of bot.rs lines 342-372.  Each iteration records a
transfer of the minimum of the current debtor and creditor remaining
balances, subtracts it from both, and advances past a party whose
remaining balance is exactly zero.  The loop is written with indices in
the source; here the not-yet-processed suffixes are passed, with the
current party at the head carrying its updated balance.  The fuel
argument bounds the iteration count; the last branch, in which neither
party reaches zero, is impossible because the minimum equals one of the
two balances, so fuel ds.length + cs.length (the value passed by
settleFrom) always suffices, mirroring the terminating source loop. -/
def matchLoop : Nat → List UserDebt → List UserDebt → List Transfer
  | 0, _, _ => []
  | _ + 1, [], _ => []
  | _ + 1, _ :: _, [] => []
  | fuel + 1, d :: ds, c :: cs =>
    let t := d.debt.min c.debt
    (d.username, c.username, t) ::
      (if (d.debt.sub t).beq Dec.zero then
        if (c.debt.sub t).beq Dec.zero then
          matchLoop fuel ds cs
        else
          matchLoop fuel ds (⟨c.username, c.debt.sub t⟩ :: cs)
      else
        if (c.debt.sub t).beq Dec.zero then
          matchLoop fuel (⟨d.username, d.debt.sub t⟩ :: ds) cs
        else
          matchLoop fuel (⟨d.username, d.debt.sub t⟩ :: ds) (⟨c.username, c.debt.sub t⟩ :: cs))

/-- The transactions list computed by bot.rs lines 314-372 from one
enumeration l of the user_spent map. -/
def settleFrom (l : List (String × Dec)) : List Transfer :=
  matchLoop ((sortByDebt (debitorsOf l)).length + (sortByDebt (creditorsOf l)).length)
    (sortByDebt (debitorsOf l)) (sortByDebt (creditorsOf l))

/-- Total amount, as a value, paid by user u as a debtor in a transfer list. -/
def paidByQ (u : String) (txs : List Transfer) : ℚ :=
  ((txs.filter (fun tx => tx.1 == u)).map (fun tx => tx.2.2.toRat)).sum

/-- Total amount, as a value, received by user u as a creditor in a transfer list. -/
def receivedByQ (u : String) (txs : List Transfer) : ℚ :=
  ((txs.filter (fun tx => tx.2.1 == u)).map (fun tx => tx.2.2.toRat)).sum

/-- Total balance value carried by user u in a UserDebt list. -/
def owedInQ (u : String) (l : List UserDebt) : ℚ :=
  ((l.filter (fun e => e.username == u)).map (fun e => e.debt.toRat)).sum

example :
    userSpentOf [⟨"@a", 1, ⟨4, 0⟩, "x"⟩, ⟨"@b", 1, ⟨3, 0⟩, "y"⟩, ⟨"@c", 1, ⟨3, 0⟩, "z"⟩]
      = [("@a", ⟨4, 0⟩), ("@b", ⟨3, 0⟩), ("@c", ⟨3, 0⟩)] := by decide

example :
    balanceSumOf [("@a", ⟨4, 0⟩), ("@b", ⟨3, 0⟩), ("@c", ⟨3, 0⟩)] = ⟨1, 28⟩ := by decide

example :
    settleFrom [("@a", ⟨10, 0⟩), ("@b", ⟨20, 0⟩), ("@c", ⟨30, 0⟩)]
      = [("@a", "@c", ⟨100000000000000000000000000000, 28⟩)] := by decide

/-- The balance assigned to user u by the user_debt vector computed from
the enumeration l of per-user totals. -/
def balanceOf (u : String) (l : List (String × Dec)) : Option Dec :=
  ((userDebtOf l).find? (fun p => p.1 == u)).map Prod.snd

/-- Expense entries in which three spenders spent 4, 3 and 3: the total
10 is not divisible by 3 in decimal arithmetic. -/
def entries433 : List ExpenseRow :=
  [⟨"@a", 1, ⟨4, 0⟩, "x"⟩, ⟨"@b", 1, ⟨3, 0⟩, "y"⟩, ⟨"@c", 1, ⟨3, 0⟩, "z"⟩]

/-- C1: the claim states that for every non-empty list of expense
entries with positive amounts the signed per-user balances sum to
exactly zero and that the decimal arithmetic never introduces a rounding
error violating this.  The code computes the mean with rust_decimal
division, which rounds 10 / 3 to 3.3333333333333333333333333333, and on
the entries 4, 3, 3 the Decimal sum of balances computed by the
debug_assert of bot.rs line 312 is 0.0000000000000000000000000001, not
zero: the assertion of the code itself fails on this input. -/
theorem C1_zero_sum_violated :
    balanceSumOf (userSpentOf entries433) = ⟨1, 28⟩ ∧
      (balanceSumOf (userSpentOf entries433)).beq Dec.zero = false := by
  decide

/-- Scenario A of the spec: three members, of whom only one has spent
anything (30); expense amounts are positive, so the two zero-spenders
contribute no entries. -/
def entriesScenarioA : List ExpenseRow := [⟨"@a", 1, ⟨30, 0⟩, "x"⟩]

/-- C2 counterexample: on the entries of Scenario A the settlement does
not produce two transfers; it produces none, because the mean is taken
over spenders only. -/
theorem C2_counterexample :
    (settleFrom (userSpentOf entriesScenarioA)).length ≠ 2 := by
  decide

/-- C2 amended: the mean of bot.rs line 305 divides by the number of
distinct spenders, not group members; with only the 30-spender having
entries the mean is 30, every balance is zero, and the transfer list is
empty, so the two zero-spenders are never charged. -/
theorem C2_amended_single_spender :
    settleFrom (userSpentOf entriesScenarioA) = [] ∧
      (meanOf (userSpentOf entriesScenarioA)).beq ⟨30, 0⟩ = true := by
  decide

/-- C4: on the entries 4, 3, 3 the rounded mean breaks the zero-sum
precondition and the matching loop exhausts the debtors before the
creditor is fully paid: the creditor balance of user a is
0.6666666666666666666666666667, but the transfers credit a with only
0.6666666666666666666666666666. -/
theorem C4_creditor_shortchanged :
    balanceOf "@a" (userSpentOf entries433) = some ⟨6666666666666666666666666667, 28⟩ ∧
      receivedByQ "@a" (settleFrom (userSpentOf entries433))
        = (6666666666666666666666666666 : ℚ) / 10 ^ 28 ∧
      (6666666666666666666666666666 : ℚ) / 10 ^ 28
        ≠ (⟨6666666666666666666666666667, 28⟩ : Dec).toRat := by
  refine ⟨by decide, ?_, ?_⟩
  · show receivedByQ "@a" (settleFrom (userSpentOf entries433)) = _
    have h : settleFrom (userSpentOf entries433)
        = [("@b", "@a", ⟨3333333333333333333333333333, 28⟩),
           ("@c", "@a", ⟨3333333333333333333333333333, 28⟩)] := by decide
    rw [h]
    unfold receivedByQ Dec.toRat
    norm_num
  · unfold Dec.toRat
    norm_num

lemma paidByQ_nil (u : String) : paidByQ u [] = 0 := rfl

lemma receivedByQ_nil (u : String) : receivedByQ u [] = 0 := rfl

lemma paidByQ_cons (u : String) (tx : Transfer) (txs : List Transfer) :
    paidByQ u (tx :: txs)
      = (if tx.1 = u then tx.2.2.toRat else 0) + paidByQ u txs := by
  unfold paidByQ
  by_cases h : tx.1 = u
  · simp [List.filter_cons, h]
  · simp [List.filter_cons, h]

lemma receivedByQ_cons (u : String) (tx : Transfer) (txs : List Transfer) :
    receivedByQ u (tx :: txs)
      = (if tx.2.1 = u then tx.2.2.toRat else 0) + receivedByQ u txs := by
  unfold receivedByQ
  by_cases h : tx.2.1 = u
  · simp [List.filter_cons, h]
  · simp [List.filter_cons, h]

lemma owedInQ_cons (u : String) (e : UserDebt) (l : List UserDebt) :
    owedInQ u (e :: l)
      = (if e.username = u then e.debt.toRat else 0) + owedInQ u l := by
  unfold owedInQ
  by_cases h : e.username = u
  · simp [List.filter_cons, h]
  · simp [List.filter_cons, h]

lemma owedInQ_eq_zero (u : String) (l : List UserDebt)
    (h : u ∉ l.map UserDebt.username) : owedInQ u l = 0 := by
  unfold owedInQ
  have hf : l.filter (fun e => e.username == u) = [] := by
    rw [List.filter_eq_nil_iff]
    intro e he
    simp only [beq_iff_eq]
    intro hco
    exact h (by simpa [hco] using List.mem_map_of_mem UserDebt.username he)
  rw [hf]
  rfl

lemma owedInQ_head (d : UserDebt) (ds : List UserDebt)
    (h : ((d :: ds).map UserDebt.username).Nodup) :
    owedInQ d.username (d :: ds) = d.debt.toRat := by
  rw [owedInQ_cons, if_pos rfl, owedInQ_eq_zero, add_zero]
  simp only [List.map_cons, List.nodup_cons] at h
  exact h.1

/-- One of the two parties of a matching step is settled exactly by the
transferred minimum. -/
lemma min_sub_self_zero (a b : Dec) :
    ((a.sub (a.min b)).beq Dec.zero = true) ∨ ((b.sub (a.min b)).beq Dec.zero = true) := by
  unfold Dec.min
  by_cases h : a.le b = true
  · left
    rw [if_pos h, Dec.beq_zero_iff, Dec.toRat_sub]
    ring
  · right
    rw [if_neg h, Dec.beq_zero_iff, Dec.toRat_sub]
    ring

/-- Shared accounting step for the matching-loop trace lemma: if the
remaining balances passed to the recursive call are those before the
head transfer reduced by that transfer, the characterization of the tail
lifts over the head. -/
lemma step_accounting (d c : UserDebt) (t : Dec) (ds cs ds2 cs2 : List UserDebt)
    (rest : List Transfer)
    (hds : ∀ u, owedInQ u ds2
      = owedInQ u (d :: ds) - (if d.username = u then t.toRat else 0))
    (hcs : ∀ u, owedInQ u cs2
      = owedInQ u (c :: cs) - (if c.username = u then t.toRat else 0))
    (ih : ∀ (k : Nat) (tx : Transfer), rest[k]? = some tx →
      tx.2.2.toRat = Min.min (owedInQ tx.1 ds2 - paidByQ tx.1 (rest.take k))
        (owedInQ tx.2.1 cs2 - receivedByQ tx.2.1 (rest.take k)))
    (k : Nat) (tx : Transfer) (h : rest[k]? = some tx) :
    tx.2.2.toRat = Min.min
      (owedInQ tx.1 (d :: ds)
        - paidByQ tx.1 (((d.username, c.username, t) :: rest).take (k + 1)))
      (owedInQ tx.2.1 (c :: cs)
        - receivedByQ tx.2.1 (((d.username, c.username, t) :: rest).take (k + 1))) := by
  rw [List.take_succ_cons, paidByQ_cons, receivedByQ_cons, ih k tx h, hds, hcs]
  congr 1 <;> ring_nf

/-- Trace characterization of the matching loop of bot.rs lines 342-372:
assuming usernames within each side are distinct, the amount of the
transfer produced at any iteration equals the minimum of the remaining
balances (initial balance minus what the earlier transfers already
settled) of the debtor and the creditor it pairs. -/
lemma matchLoop_amount_min :
    ∀ (fuel : Nat) (ds cs : List UserDebt),
      (ds.map UserDebt.username).Nodup → (cs.map UserDebt.username).Nodup →
      ds.length + cs.length ≤ fuel →
      ∀ (k : Nat) (tx : Transfer), (matchLoop fuel ds cs)[k]? = some tx →
        tx.2.2.toRat
          = Min.min (owedInQ tx.1 ds - paidByQ tx.1 ((matchLoop fuel ds cs).take k))
              (owedInQ tx.2.1 cs - receivedByQ tx.2.1 ((matchLoop fuel ds cs).take k)) := by
  intro fuel
  induction fuel with
  | zero =>
    intro ds cs _ _ _ k tx h
    simp [matchLoop] at h
  | succ fuel ih =>
    intro ds cs hd hc hfuel k tx h
    cases ds with
    | nil => simp [matchLoop] at h
    | cons d ds =>
      cases cs with
      | nil => simp [matchLoop] at h
      | cons c cs =>
        have hdt' : ((d :: ds).map UserDebt.username).Nodup := hd
        have hct' : ((c :: cs).map UserDebt.username).Nodup := hc
        have hdtail : (ds.map UserDebt.username).Nodup := by
          simp only [List.map_cons, List.nodup_cons] at hd
          exact hd.2
        have hctail : (cs.map UserDebt.username).Nodup := by
          simp only [List.map_cons, List.nodup_cons] at hc
          exact hc.2
        by_cases h1 : (d.debt.sub (d.debt.min c.debt)).beq Dec.zero = true
        · by_cases h2 : (c.debt.sub (d.debt.min c.debt)).beq Dec.zero = true
          · -- both parties settled: advance both
            have hstep : matchLoop (fuel + 1) (d :: ds) (c :: cs)
                = (d.username, c.username, d.debt.min c.debt) :: matchLoop fuel ds cs := by
              simp [matchLoop, h1, h2]
            rw [hstep] at h ⊢
            cases k with
            | zero =>
              simp only [List.getElem?_cons_zero, Option.some_inj] at h
              subst h
              simp only [List.take_zero, paidByQ_nil, receivedByQ_nil, sub_zero]
              rw [owedInQ_head d ds hdt', owedInQ_head c cs hct', Dec.toRat_min]
            | succ k =>
              simp only [List.getElem?_cons_succ] at h
              refine step_accounting d c (d.debt.min c.debt) ds cs ds cs _ ?_ ?_ ?_ k tx h
              · intro u
                have hdt : d.debt.toRat = (d.debt.min c.debt).toRat := by
                  have hz := (Dec.beq_zero_iff _).1 h1
                  rw [Dec.toRat_sub] at hz
                  linarith
                rw [owedInQ_cons]
                by_cases hu : d.username = u
                · rw [if_pos hu, if_pos hu, hdt]
                  ring
                · rw [if_neg hu, if_neg hu]
                  ring
              · intro u
                have hct : c.debt.toRat = (d.debt.min c.debt).toRat := by
                  have hz := (Dec.beq_zero_iff _).1 h2
                  rw [Dec.toRat_sub] at hz
                  linarith
                rw [owedInQ_cons]
                by_cases hu : c.username = u
                · rw [if_pos hu, if_pos hu, hct]
                  ring
                · rw [if_neg hu, if_neg hu]
                  ring
              · intro k tx htx
                refine ih ds cs hdtail hctail ?_ k tx htx
                simp only [List.length_cons] at hfuel
                omega
          · -- debtor settled, creditor keeps a remainder
            have hstep : matchLoop (fuel + 1) (d :: ds) (c :: cs)
                = (d.username, c.username, d.debt.min c.debt)
                  :: matchLoop fuel ds (⟨c.username, c.debt.sub (d.debt.min c.debt)⟩ :: cs) := by
              simp [matchLoop, h1, h2]
            rw [hstep] at h ⊢
            cases k with
            | zero =>
              simp only [List.getElem?_cons_zero, Option.some_inj] at h
              subst h
              simp only [List.take_zero, paidByQ_nil, receivedByQ_nil, sub_zero]
              rw [owedInQ_head d ds hdt', owedInQ_head c cs hct', Dec.toRat_min]
            | succ k =>
              simp only [List.getElem?_cons_succ] at h
              refine step_accounting d c (d.debt.min c.debt) ds cs ds
                (⟨c.username, c.debt.sub (d.debt.min c.debt)⟩ :: cs) _ ?_ ?_ ?_ k tx h
              · intro u
                have hdt : d.debt.toRat = (d.debt.min c.debt).toRat := by
                  have hz := (Dec.beq_zero_iff _).1 h1
                  rw [Dec.toRat_sub] at hz
                  linarith
                rw [owedInQ_cons]
                by_cases hu : d.username = u
                · rw [if_pos hu, if_pos hu, hdt]
                  ring
                · rw [if_neg hu, if_neg hu]
                  ring
              · intro u
                rw [owedInQ_cons, owedInQ_cons]
                show (if c.username = u then (c.debt.sub (d.debt.min c.debt)).toRat else 0) + _ = _
                rw [Dec.toRat_sub]
                by_cases hu : c.username = u
                · rw [if_pos hu, if_pos hu, if_pos hu]
                  ring
                · rw [if_neg hu, if_neg hu, if_neg hu]
                  ring
              · intro k tx htx
                refine ih ds (⟨c.username, c.debt.sub (d.debt.min c.debt)⟩ :: cs)
                  hdtail ?_ ?_ k tx htx
                · simpa using hct'
                · simp only [List.length_cons] at hfuel ⊢
                  omega
        · by_cases h2 : (c.debt.sub (d.debt.min c.debt)).beq Dec.zero = true
          · -- creditor settled, debtor keeps a remainder
            have hstep : matchLoop (fuel + 1) (d :: ds) (c :: cs)
                = (d.username, c.username, d.debt.min c.debt)
                  :: matchLoop fuel (⟨d.username, d.debt.sub (d.debt.min c.debt)⟩ :: ds) cs := by
              simp [matchLoop, h1, h2]
            rw [hstep] at h ⊢
            cases k with
            | zero =>
              simp only [List.getElem?_cons_zero, Option.some_inj] at h
              subst h
              simp only [List.take_zero, paidByQ_nil, receivedByQ_nil, sub_zero]
              rw [owedInQ_head d ds hdt', owedInQ_head c cs hct', Dec.toRat_min]
            | succ k =>
              simp only [List.getElem?_cons_succ] at h
              refine step_accounting d c (d.debt.min c.debt) ds cs
                (⟨d.username, d.debt.sub (d.debt.min c.debt)⟩ :: ds) cs _ ?_ ?_ ?_ k tx h
              · intro u
                rw [owedInQ_cons, owedInQ_cons]
                show (if d.username = u then (d.debt.sub (d.debt.min c.debt)).toRat else 0) + _ = _
                rw [Dec.toRat_sub]
                by_cases hu : d.username = u
                · rw [if_pos hu, if_pos hu, if_pos hu]
                  ring
                · rw [if_neg hu, if_neg hu, if_neg hu]
                  ring
              · intro u
                have hct : c.debt.toRat = (d.debt.min c.debt).toRat := by
                  have hz := (Dec.beq_zero_iff _).1 h2
                  rw [Dec.toRat_sub] at hz
                  linarith
                rw [owedInQ_cons]
                by_cases hu : c.username = u
                · rw [if_pos hu, if_pos hu, hct]
                  ring
                · rw [if_neg hu, if_neg hu]
                  ring
              · intro k tx htx
                refine ih (⟨d.username, d.debt.sub (d.debt.min c.debt)⟩ :: ds) cs
                  ?_ hctail ?_ k tx htx
                · simpa using hdt'
                · simp only [List.length_cons] at hfuel ⊢
                  omega
          · -- impossible: the minimum settles one of the two parties
            rcases min_sub_self_zero d.debt c.debt with hz | hz
            · exact absurd hz h1
            · exact absurd hz h2

lemma Dec.toRat_abs (a : Dec) : a.abs.toRat = |a.toRat| := by
  unfold Dec.abs Dec.toRat
  rw [abs_div, abs_of_pos (ten_pow_pos a.scale)]
  push_cast
  rfl

lemma addSpent_keys (m : List (String × Dec)) (e : ExpenseRow) :
    (addSpent m e).map Prod.fst
      = if m.any (fun p => p.1 == e.username) then m.map Prod.fst
        else m.map Prod.fst ++ [e.username] := by
  unfold addSpent
  by_cases h : m.any (fun p => p.1 == e.username) = true
  · rw [if_pos h, if_pos h, List.map_map]
    apply List.map_congr_left
    intro p _
    show (if (p.1 == e.username) = true then (p.1, p.2.add e.amount) else p).1 = p.1
    split <;> rfl
  · rw [if_neg h, if_neg h, List.map_append]
    rfl

/-- The user_spent aggregation produces one entry per distinct username. -/
lemma userSpentOf_keys_nodup (es : List ExpenseRow) :
    ((userSpentOf es).map Prod.fst).Nodup := by
  suffices hgen : ∀ (m : List (String × Dec)), (m.map Prod.fst).Nodup →
      ((es.foldl addSpent m).map Prod.fst).Nodup by
    exact hgen [] List.nodup_nil
  induction es with
  | nil =>
    intro m hm
    exact hm
  | cons e es ihes =>
    intro m hm
    rw [List.foldl_cons]
    apply ihes
    rw [addSpent_keys]
    by_cases h : m.any (fun p => p.1 == e.username) = true
    · rw [if_pos h]
      exact hm
    · rw [if_neg h]
      have hnm : e.username ∉ m.map Prod.fst := by
        intro hmem
        rcases List.mem_map.1 hmem with ⟨p, hp, hfst⟩
        rw [Bool.not_eq_true, List.any_eq_false] at h
        exact h p hp (by simp [hfst])
      rw [List.nodup_append]
      exact ⟨hm, List.nodup_singleton _,
        by simpa [List.disjoint_singleton] using hnm⟩

lemma creditorsOf_usernames (l : List (String × Dec)) :
    (creditorsOf l).map UserDebt.username
      = ((userDebtOf l).filter (fun p => Dec.zero.blt p.2)).map Prod.fst := by
  unfold creditorsOf
  rw [List.map_map]
  rfl

lemma debitorsOf_usernames (l : List (String × Dec)) :
    (debitorsOf l).map UserDebt.username
      = ((userDebtOf l).filter (fun p => p.2.blt Dec.zero)).map Prod.fst := by
  unfold debitorsOf
  rw [List.map_map]
  rfl

lemma userDebtOf_keys (l : List (String × Dec)) :
    (userDebtOf l).map Prod.fst = l.map Prod.fst := by
  unfold userDebtOf
  rw [List.map_map]
  rfl

lemma creditorsOf_usernames_nodup (l : List (String × Dec))
    (h : (l.map Prod.fst).Nodup) :
    ((creditorsOf l).map UserDebt.username).Nodup := by
  rw [creditorsOf_usernames]
  have h2 : ((userDebtOf l).map Prod.fst).Nodup := by
    rw [userDebtOf_keys]
    exact h
  exact List.Nodup.sublist (List.Sublist.map Prod.fst (List.filter_sublist _)) h2

lemma debitorsOf_usernames_nodup (l : List (String × Dec))
    (h : (l.map Prod.fst).Nodup) :
    ((debitorsOf l).map UserDebt.username).Nodup := by
  rw [debitorsOf_usernames]
  have h2 : ((userDebtOf l).map Prod.fst).Nodup := by
    rw [userDebtOf_keys]
    exact h
  exact List.Nodup.sublist (List.Sublist.map Prod.fst (List.filter_sublist _)) h2

lemma sortByDebt_perm (l : List UserDebt) : (sortByDebt l).Perm l :=
  List.perm_insertionSort debtGe l

lemma sortByDebt_usernames_nodup (l : List UserDebt)
    (h : (l.map UserDebt.username).Nodup) :
    ((sortByDebt l).map UserDebt.username).Nodup :=
  (((sortByDebt_perm l).map UserDebt.username).nodup_iff).2 h

/-- Expenses of five spenders spending 5, 6, 13, 13 and 13 (sum 50,
mean 10): balances are -5, -4, +3, +3, +3. -/
def entries5 : List ExpenseRow :=
  [⟨"@a", 1, ⟨5, 0⟩, ""⟩, ⟨"@b", 1, ⟨6, 0⟩, ""⟩, ⟨"@c", 1, ⟨13, 0⟩, ""⟩,
   ⟨"@d", 1, ⟨13, 0⟩, ""⟩, ⟨"@e", 1, ⟨13, 0⟩, ""⟩]

/-- C5 counterexample: the claim states that every iteration pairs the
debtor with the largest remaining balance against the creditor with the
largest remaining balance.  On entries5 the second transfer is made by
debtor a, whose remaining balance after the first transfer is 2, while
debtor b still carries a remaining balance of 4: the loop keeps the
current debtor after a partial match instead of reselecting the largest
remaining one. -/
theorem C5_counterexample :
    (settleFrom (userSpentOf entries5))[1]?
        = some ("@a", "@d", ⟨20000000000000000000000000000, 28⟩) ∧
      owedInQ "@a" (sortByDebt (debitorsOf (userSpentOf entries5)))
        - paidByQ "@a" ((settleFrom (userSpentOf entries5)).take 1) = 2 ∧
      owedInQ "@b" (sortByDebt (debitorsOf (userSpentOf entries5)))
        - paidByQ "@b" ((settleFrom (userSpentOf entries5)).take 1) = 4 ∧
      (2 : ℚ) < 4 := by
  have hs : settleFrom (userSpentOf entries5)
      = [("@a", "@c", ⟨30000000000000000000000000000, 28⟩),
         ("@a", "@d", ⟨20000000000000000000000000000, 28⟩),
         ("@b", "@d", ⟨10000000000000000000000000000, 28⟩),
         ("@b", "@e", ⟨30000000000000000000000000000, 28⟩)] := by decide
  have hd : sortByDebt (debitorsOf (userSpentOf entries5))
      = [⟨"@a", ⟨50000000000000000000000000000, 28⟩⟩,
         ⟨"@b", ⟨40000000000000000000000000000, 28⟩⟩] := by decide
  refine ⟨by rw [hs]; rfl, ?_, ?_, by norm_num⟩
  · rw [hs, hd]
    unfold owedInQ paidByQ Dec.toRat
    norm_num [List.filter_cons, List.filter_nil,
      (by decide : ("@b" : String) ≠ "@a"), (by decide : ("@a" : String) ≠ "@b")]
  · rw [hs, hd]
    unfold owedInQ paidByQ Dec.toRat
    norm_num [List.filter_cons, List.filter_nil,
      (by decide : ("@b" : String) ≠ "@a"), (by decide : ("@a" : String) ≠ "@b")]

/-- C5 amended: each iteration of the matching loop of bot.rs lines
342-372 pairs the current debtor and the current creditor (initially the
largest of each side, but after a partial match the reduced current
party is kept even if a later party has a larger remaining balance);
the recorded amount is always the minimum of the remaining balances
(initial sorted balance minus what earlier transfers settled) of the two
parties paired, and the transfer list is produced in loop order. -/
theorem C5_amended_transfer_is_min (es : List ExpenseRow) (k : Nat) (tx : Transfer)
    (h : (settleFrom (userSpentOf es))[k]? = some tx) :
    tx.2.2.toRat = Min.min
      (owedInQ tx.1 (sortByDebt (debitorsOf (userSpentOf es)))
        - paidByQ tx.1 ((settleFrom (userSpentOf es)).take k))
      (owedInQ tx.2.1 (sortByDebt (creditorsOf (userSpentOf es)))
        - receivedByQ tx.2.1 ((settleFrom (userSpentOf es)).take k)) := by
  have hdn := sortByDebt_usernames_nodup _
    (debitorsOf_usernames_nodup _ (userSpentOf_keys_nodup es))
  have hcn := sortByDebt_usernames_nodup _
    (creditorsOf_usernames_nodup _ (userSpentOf_keys_nodup es))
  exact matchLoop_amount_min _ _ _ hdn hcn le_rfl k tx h

/-- C5 witness: the amended theorem applied to entries5 at the first
transfer. -/
theorem C5_amended_transfer_is_min_witness :
    (settleFrom (userSpentOf entries5))[0]?
        = some ("@a", "@c", ⟨30000000000000000000000000000, 28⟩) ∧
      ((("@a", "@c", (⟨30000000000000000000000000000, 28⟩ : Dec)) : Transfer).2.2.toRat
        = Min.min
          (owedInQ "@a" (sortByDebt (debitorsOf (userSpentOf entries5)))
            - paidByQ "@a" ((settleFrom (userSpentOf entries5)).take 0))
          (owedInQ "@c" (sortByDebt (creditorsOf (userSpentOf entries5)))
            - receivedByQ "@c" ((settleFrom (userSpentOf entries5)).take 0))) :=
  ⟨by decide, C5_amended_transfer_is_min entries5 0 _ (by decide)⟩

/-- Transfers produced by the matching loop have positive amounts when
all input balances are positive, and their debtor and creditor names
come from the respective input lists. -/
lemma matchLoop_pos_mem :
    ∀ (fuel : Nat) (ds cs : List UserDebt),
      (∀ e ∈ ds, 0 < e.debt.toRat) → (∀ e ∈ cs, 0 < e.debt.toRat) →
      ∀ tx ∈ matchLoop fuel ds cs,
        0 < tx.2.2.toRat ∧ tx.1 ∈ ds.map UserDebt.username
          ∧ tx.2.1 ∈ cs.map UserDebt.username := by
  intro fuel
  induction fuel with
  | zero =>
    intro ds cs _ _ tx htx
    simp [matchLoop] at htx
  | succ fuel ih =>
    intro ds cs hd hc tx htx
    cases ds with
    | nil => simp [matchLoop] at htx
    | cons d ds =>
      cases cs with
      | nil => simp [matchLoop] at htx
      | cons c cs =>
        have hdpos : 0 < d.debt.toRat := hd d (List.mem_cons_self _ _)
        have hcpos : 0 < c.debt.toRat := hc c (List.mem_cons_self _ _)
        have htpos : 0 < (d.debt.min c.debt).toRat := by
          rw [Dec.toRat_min]
          exact lt_min hdpos hcpos
        have htled : (d.debt.min c.debt).toRat ≤ d.debt.toRat := by
          rw [Dec.toRat_min]
          exact min_le_left _ _
        have htlec : (d.debt.min c.debt).toRat ≤ c.debt.toRat := by
          rw [Dec.toRat_min]
          exact min_le_right _ _
        by_cases h1 : (d.debt.sub (d.debt.min c.debt)).beq Dec.zero = true
        · by_cases h2 : (c.debt.sub (d.debt.min c.debt)).beq Dec.zero = true
          · rw [show matchLoop (fuel + 1) (d :: ds) (c :: cs)
                = (d.username, c.username, d.debt.min c.debt) :: matchLoop fuel ds cs from
                by simp [matchLoop, h1, h2]] at htx
            rcases List.mem_cons.1 htx with rfl | htx
            · exact ⟨htpos, by simp, by simp⟩
            · have hres := ih ds cs (fun e he => hd e (List.mem_cons_of_mem _ he))
                (fun e he => hc e (List.mem_cons_of_mem _ he)) tx htx
              exact ⟨hres.1, List.mem_cons_of_mem _ hres.2.1, List.mem_cons_of_mem _ hres.2.2⟩
          · rw [show matchLoop (fuel + 1) (d :: ds) (c :: cs)
                = (d.username, c.username, d.debt.min c.debt)
                  :: matchLoop fuel ds (⟨c.username, c.debt.sub (d.debt.min c.debt)⟩ :: cs) from
                by simp [matchLoop, h1, h2]] at htx
            rcases List.mem_cons.1 htx with rfl | htx
            · exact ⟨htpos, by simp, by simp⟩
            · have hcpos2 : ∀ e ∈ (⟨c.username, c.debt.sub (d.debt.min c.debt)⟩ :: cs),
                  0 < e.debt.toRat := by
                intro e he
                rcases List.mem_cons.1 he with rfl | he
                · show 0 < (c.debt.sub (d.debt.min c.debt)).toRat
                  rw [Dec.toRat_sub]
                  have hne : (c.debt.sub (d.debt.min c.debt)).toRat ≠ 0 := by
                    intro hz
                    exact h2 ((Dec.beq_zero_iff _).2 hz)
                  rw [Dec.toRat_sub] at hne
                  rcases lt_or_eq_of_le htlec with hlt | heq
                  · linarith
                  · exact absurd (by linarith) hne
                · exact hc e (List.mem_cons_of_mem _ he)
              have hres := ih ds (⟨c.username, c.debt.sub (d.debt.min c.debt)⟩ :: cs)
                (fun e he => hd e (List.mem_cons_of_mem _ he)) hcpos2 tx htx
              exact ⟨hres.1, List.mem_cons_of_mem _ hres.2.1, hres.2.2⟩
        · by_cases h2 : (c.debt.sub (d.debt.min c.debt)).beq Dec.zero = true
          · rw [show matchLoop (fuel + 1) (d :: ds) (c :: cs)
                = (d.username, c.username, d.debt.min c.debt)
                  :: matchLoop fuel (⟨d.username, d.debt.sub (d.debt.min c.debt)⟩ :: ds) cs from
                by simp [matchLoop, h1, h2]] at htx
            rcases List.mem_cons.1 htx with rfl | htx
            · exact ⟨htpos, by simp, by simp⟩
            · have hdpos2 : ∀ e ∈ (⟨d.username, d.debt.sub (d.debt.min c.debt)⟩ :: ds),
                  0 < e.debt.toRat := by
                intro e he
                rcases List.mem_cons.1 he with rfl | he
                · show 0 < (d.debt.sub (d.debt.min c.debt)).toRat
                  rw [Dec.toRat_sub]
                  have hne : (d.debt.sub (d.debt.min c.debt)).toRat ≠ 0 := by
                    intro hz
                    exact h1 ((Dec.beq_zero_iff _).2 hz)
                  rw [Dec.toRat_sub] at hne
                  rcases lt_or_eq_of_le htled with hlt | heq
                  · linarith
                  · exact absurd (by linarith) hne
                · exact hd e (List.mem_cons_of_mem _ he)
              have hres := ih (⟨d.username, d.debt.sub (d.debt.min c.debt)⟩ :: ds) cs
                hdpos2 (fun e he => hc e (List.mem_cons_of_mem _ he)) tx htx
              exact ⟨hres.1, hres.2.1, List.mem_cons_of_mem _ hres.2.2⟩
          · rcases min_sub_self_zero d.debt c.debt with hz | hz
            · exact absurd hz h1
            · exact absurd hz h2

lemma creditorsOf_pos (l : List (String × Dec)) :
    ∀ e ∈ creditorsOf l, 0 < e.debt.toRat := by
  intro e he
  unfold creditorsOf at he
  rcases List.mem_map.1 he with ⟨p, hp, rfl⟩
  rcases List.mem_filter.1 hp with ⟨_, hblt⟩
  have hpos := (Dec.blt_iff _ _).1 hblt
  rw [Dec.toRat_zero] at hpos
  show 0 < p.2.abs.toRat
  rw [Dec.toRat_abs]
  exact abs_pos.2 hpos.ne'

lemma debitorsOf_pos (l : List (String × Dec)) :
    ∀ e ∈ debitorsOf l, 0 < e.debt.toRat := by
  intro e he
  unfold debitorsOf at he
  rcases List.mem_map.1 he with ⟨p, hp, rfl⟩
  rcases List.mem_filter.1 hp with ⟨_, hblt⟩
  have hneg := (Dec.blt_iff _ _).1 hblt
  rw [Dec.toRat_zero] at hneg
  show 0 < p.2.abs.toRat
  rw [Dec.toRat_abs]
  exact abs_pos.2 hneg.ne

/-- A username cannot be on both sides of the partition of bot.rs lines
318-335 when per-user totals carry distinct usernames. -/
lemma creditor_debtor_disjoint (l : List (String × Dec))
    (hn : (l.map Prod.fst).Nodup) (u : String)
    (hcm : u ∈ (creditorsOf l).map UserDebt.username)
    (hdm : u ∈ (debitorsOf l).map UserDebt.username) : False := by
  rw [creditorsOf_usernames] at hcm
  rw [debitorsOf_usernames] at hdm
  rcases List.mem_map.1 hcm with ⟨p, hp, hpu⟩
  rcases List.mem_map.1 hdm with ⟨q, hq, hqu⟩
  rcases List.mem_filter.1 hp with ⟨hpmem, hpb⟩
  rcases List.mem_filter.1 hq with ⟨hqmem, hqb⟩
  have hnd : ((userDebtOf l).map Prod.fst).Nodup := by
    rw [userDebtOf_keys]
    exact hn
  have hpq : p = q := List.inj_on_of_nodup_map hnd hpmem hqmem (by rw [hpu, hqu])
  subst hpq
  have h1 := (Dec.blt_iff _ _).1 hpb
  have h2 := (Dec.blt_iff _ _).1 hqb
  rw [Dec.toRat_zero] at h1 h2
  linarith

/-- C10: every transfer emitted by the settlement computation carries a
strictly positive amount and pairs two distinct usernames. -/
theorem C10_transfers_wellformed (es : List ExpenseRow) (tx : Transfer)
    (h : tx ∈ settleFrom (userSpentOf es)) :
    0 < tx.2.2.toRat ∧ tx.1 ≠ tx.2.1 := by
  have hposd : ∀ e ∈ sortByDebt (debitorsOf (userSpentOf es)), 0 < e.debt.toRat := by
    intro e he
    exact debitorsOf_pos _ e ((sortByDebt_perm _).mem_iff.1 he)
  have hposc : ∀ e ∈ sortByDebt (creditorsOf (userSpentOf es)), 0 < e.debt.toRat := by
    intro e he
    exact creditorsOf_pos _ e ((sortByDebt_perm _).mem_iff.1 he)
  have hmain := matchLoop_pos_mem _ _ _ hposd hposc tx h
  refine ⟨hmain.1, ?_⟩
  intro heq
  have hdm : tx.1 ∈ (debitorsOf (userSpentOf es)).map UserDebt.username :=
    (((sortByDebt_perm _).map UserDebt.username).mem_iff).1 hmain.2.1
  have hcm : tx.2.1 ∈ (creditorsOf (userSpentOf es)).map UserDebt.username :=
    (((sortByDebt_perm _).map UserDebt.username).mem_iff).1 hmain.2.2
  rw [← heq] at hcm
  exact creditor_debtor_disjoint _ (userSpentOf_keys_nodup es) tx.1 hcm hdm

/-- Scenario B of the spec: three spenders spending 10, 20 and 30. -/
def entriesScenarioB : List ExpenseRow :=
  [⟨"@a", 1, ⟨10, 0⟩, "x"⟩, ⟨"@b", 1, ⟨20, 0⟩, "y"⟩, ⟨"@c", 1, ⟨30, 0⟩, "z"⟩]

/-- C10 witness: the well-formedness theorem applied to the single
transfer of Scenario B. -/
theorem C10_transfers_wellformed_witness :
    ("@a", "@c", (⟨100000000000000000000000000000, 28⟩ : Dec))
        ∈ settleFrom (userSpentOf entriesScenarioB) ∧
      (0 < (⟨100000000000000000000000000000, 28⟩ : Dec).toRat ∧
        ("@a", "@c", (⟨100000000000000000000000000000, 28⟩ : Dec)).1
          ≠ ("@a", "@c", (⟨100000000000000000000000000000, 28⟩ : Dec)).2.1) :=
  ⟨by decide, C10_transfers_wellformed entriesScenarioB
    ("@a", "@c", (⟨100000000000000000000000000000, 28⟩ : Dec)) (by decide)⟩

lemma rescale_twice (m : Int) (t s1 s2 : Nat) (h1 : t ≤ s1) (h2 : s1 ≤ s2) :
    m * 10 ^ (s1 - t) * 10 ^ (s2 - s1) = m * 10 ^ (s2 - t) := by
  rw [mul_assoc, ← pow_add]
  congr 2
  omega

lemma Dec.add_add_eq (a x y : Dec) :
    (a.add x).add y
      = ⟨a.mantissa * 10 ^ (max (max a.scale x.scale) y.scale - a.scale)
          + x.mantissa * 10 ^ (max (max a.scale x.scale) y.scale - x.scale)
          + y.mantissa * 10 ^ (max (max a.scale x.scale) y.scale - y.scale),
        max (max a.scale x.scale) y.scale⟩ := by
  unfold Dec.add Dec.rescaleNum
  simp only
  congr 1
  rw [add_mul,
    rescale_twice a.mantissa a.scale (max a.scale x.scale) (max (max a.scale x.scale) y.scale)
      (le_max_left _ _) (le_max_left _ _),
    rescale_twice x.mantissa x.scale (max a.scale x.scale) (max (max a.scale x.scale) y.scale)
      (le_max_right _ _) (le_max_left _ _)]

/-- Decimal addition is right-commutative, so summing a permuted list of
Decimals yields the same Decimal (same mantissa and scale). -/
lemma Dec.add_right_comm2 (a x y : Dec) : (a.add x).add y = (a.add y).add x := by
  rw [Dec.add_add_eq, Dec.add_add_eq]
  have hs : max (max a.scale y.scale) x.scale = max (max a.scale x.scale) y.scale := by
    omega
  rw [hs]
  congr 1
  ring

instance : RightCommutative Dec.add := ⟨Dec.add_right_comm2⟩

lemma sumSpent_perm (l1 l2 : List (String × Dec)) (hp : l1.Perm l2) :
    sumSpent l1 = sumSpent l2 := by
  unfold sumSpent
  exact (hp.map Prod.snd).foldl_eq Dec.zero

lemma meanOf_perm (l1 l2 : List (String × Dec)) (hp : l1.Perm l2) :
    meanOf l1 = meanOf l2 := by
  unfold meanOf
  rw [sumSpent_perm l1 l2 hp, hp.length_eq]

lemma userDebtOf_perm (l1 l2 : List (String × Dec)) (hp : l1.Perm l2) :
    (userDebtOf l1).Perm (userDebtOf l2) := by
  unfold userDebtOf
  rw [meanOf_perm l1 l2 hp]
  exact hp.map _

/-- Two descending-sorted lists that are permutations of one another and
have pairwise distinct debt values are equal. -/
lemma sorted_perm_nodup_eq :
    ∀ (l1 l2 : List UserDebt), l1.Perm l2 →
      l1.Pairwise (fun a b => b.debt.toRat ≤ a.debt.toRat) →
      l2.Pairwise (fun a b => b.debt.toRat ≤ a.debt.toRat) →
      (l1.map (fun e => e.debt.toRat)).Nodup →
      l1 = l2 := by
  intro l1
  induction l1 with
  | nil =>
    intro l2 hp _ _ _
    exact hp.nil_eq
  | cons a t1 ih =>
    intro l2 hp hs1 hs2 hnd
    cases l2 with
    | nil => exact absurd hp.symm (by simp)
    | cons b t2 =>
      have hbmem : b ∈ a :: t1 := hp.mem_iff.2 (List.mem_cons_self _ _)
      have hamem : a ∈ b :: t2 := hp.mem_iff.1 (List.mem_cons_self _ _)
      have hab : a = b := by
        rcases List.mem_cons.1 hbmem with heqb | hb
        · exact heqb.symm
        rcases List.mem_cons.1 hamem with heqa | ha
        · exact heqa
        have h1 : b.debt.toRat ≤ a.debt.toRat := (List.pairwise_cons.1 hs1).1 b hb
        have h2 : a.debt.toRat ≤ b.debt.toRat := (List.pairwise_cons.1 hs2).1 a ha
        have hv : a.debt.toRat = b.debt.toRat := le_antisymm h2 h1
        exfalso
        have hmem2 : a.debt.toRat ∈ t1.map (fun e => e.debt.toRat) := by
          rw [hv]
          exact List.mem_map_of_mem _ hb
        rw [List.map_cons, List.nodup_cons] at hnd
        exact hnd.1 hmem2
      subst hab
      have hptail : t1.Perm t2 := hp.cons_inv
      have hndtail : (t1.map (fun e => e.debt.toRat)).Nodup := by
        rw [List.map_cons, List.nodup_cons] at hnd
        exact hnd.2
      rw [ih t2 hptail hs1.of_cons hs2.of_cons hndtail]

instance : IsTotal UserDebt debtGe :=
  ⟨fun a b => by
    unfold debtGe
    rcases le_total a.debt.toRat b.debt.toRat with h | h
    · exact Or.inr ((Dec.le_iff _ _).2 h)
    · exact Or.inl ((Dec.le_iff _ _).2 h)⟩

instance : IsTrans UserDebt debtGe :=
  ⟨fun a b c hab hbc => by
    unfold debtGe at *
    rw [Dec.le_iff] at *
    exact le_trans hbc hab⟩

lemma sortByDebt_sorted (l : List UserDebt) :
    (sortByDebt l).Pairwise (fun a b => b.debt.toRat ≤ a.debt.toRat) := by
  have hs : (sortByDebt l).Pairwise debtGe := List.sorted_insertionSort debtGe l
  exact hs.imp (fun hab => (Dec.le_iff _ _).1 hab)

lemma userDebtOf_values (l : List (String × Dec)) :
    (userDebtOf l).map (fun p => p.2.toRat)
      = l.map (fun p => p.2.toRat - (meanOf l).toRat) := by
  unfold userDebtOf
  rw [List.map_map]
  apply List.map_congr_left
  intro p _
  exact Dec.toRat_sub _ _

lemma userDebtOf_values_nodup (l : List (String × Dec))
    (hnd : (l.map (fun p => p.2.toRat)).Nodup) :
    ((userDebtOf l).map (fun p => p.2.toRat)).Nodup := by
  rw [userDebtOf_values]
  have hmm : l.map (fun p => p.2.toRat - (meanOf l).toRat)
      = (l.map (fun p => p.2.toRat)).map (fun q => q - (meanOf l).toRat) := by
    rw [List.map_map]
    rfl
  rw [hmm]
  exact hnd.map sub_left_injective

lemma creditorsOf_values_nodup (l : List (String × Dec))
    (hnd : (l.map (fun p => p.2.toRat)).Nodup) :
    ((creditorsOf l).map (fun e => e.debt.toRat)).Nodup := by
  have hbase := userDebtOf_values_nodup l hnd
  unfold creditorsOf
  rw [List.map_map]
  have hcongr : ((userDebtOf l).filter (fun p => Dec.zero.blt p.2)).map
        ((fun e : UserDebt => e.debt.toRat) ∘ (fun p : String × Dec => ⟨p.1, p.2.abs⟩))
      = ((userDebtOf l).filter (fun p => Dec.zero.blt p.2)).map (fun p => p.2.toRat) := by
    apply List.map_congr_left
    intro p hp
    rcases List.mem_filter.1 hp with ⟨_, hb⟩
    have hpos := (Dec.blt_iff _ _).1 hb
    rw [Dec.toRat_zero] at hpos
    show p.2.abs.toRat = p.2.toRat
    rw [Dec.toRat_abs]
    exact abs_of_pos hpos
  rw [hcongr]
  exact List.Nodup.sublist (List.Sublist.map _ (List.filter_sublist _)) hbase

lemma debitorsOf_values_nodup (l : List (String × Dec))
    (hnd : (l.map (fun p => p.2.toRat)).Nodup) :
    ((debitorsOf l).map (fun e => e.debt.toRat)).Nodup := by
  have hbase := userDebtOf_values_nodup l hnd
  unfold debitorsOf
  rw [List.map_map]
  have hcongr : ((userDebtOf l).filter (fun p => p.2.blt Dec.zero)).map
        ((fun e : UserDebt => e.debt.toRat) ∘ (fun p : String × Dec => ⟨p.1, p.2.abs⟩))
      = (((userDebtOf l).filter (fun p => p.2.blt Dec.zero)).map
          (fun p => p.2.toRat)).map (fun q => -q) := by
    rw [List.map_map]
    apply List.map_congr_left
    intro p hp
    rcases List.mem_filter.1 hp with ⟨_, hb⟩
    have hneg := (Dec.blt_iff _ _).1 hb
    rw [Dec.toRat_zero] at hneg
    show p.2.abs.toRat = -p.2.toRat
    rw [Dec.toRat_abs]
    exact abs_of_neg hneg
  rw [hcongr]
  exact (List.Nodup.sublist (List.Sublist.map _ (List.filter_sublist _)) hbase).map
    neg_injective

/-- C3 amended: the settlement output is a deterministic function of the
enumeration order of the per-user totals; the sort of bot.rs lines
337-339 is stable and compares only debt values, so ties between
distinct users are broken by enumeration (HashMap iteration) order, not
by handle.  When all per-user totals are pairwise distinct the output
does not depend on the enumeration order at all: any two enumerations of
the same totals produce the identical transfer list. -/
theorem C3_amended_deterministic (l1 l2 : List (String × Dec))
    (hp : l1.Perm l2)
    (hnd : l1.Pairwise (fun p q => p.2.beq q.2 = false)) :
    settleFrom l1 = settleFrom l2 := by
  have hndv : (l1.map (fun p => p.2.toRat)).Nodup := by
    refine List.pairwise_map.mpr ?_
    refine hnd.imp ?_
    intro p q h heq
    have hbeq : p.2.beq q.2 = true := (Dec.beq_iff _ _).2 heq
    rw [h] at hbeq
    exact Bool.false_ne_true hbeq
  have hcred : (creditorsOf l1).Perm (creditorsOf l2) := by
    unfold creditorsOf
    exact ((userDebtOf_perm _ _ hp).filter _).map _
  have hdeb : (debitorsOf l1).Perm (debitorsOf l2) := by
    unfold debitorsOf
    exact ((userDebtOf_perm _ _ hp).filter _).map _
  have hsc : sortByDebt (creditorsOf l1) = sortByDebt (creditorsOf l2) := by
    refine sorted_perm_nodup_eq _ _
      ((sortByDebt_perm _).trans (hcred.trans (sortByDebt_perm _).symm))
      (sortByDebt_sorted _) (sortByDebt_sorted _) ?_
    exact (((sortByDebt_perm _).map (fun e => e.debt.toRat)).nodup_iff).2
      (creditorsOf_values_nodup l1 hndv)
  have hsd : sortByDebt (debitorsOf l1) = sortByDebt (debitorsOf l2) := by
    refine sorted_perm_nodup_eq _ _
      ((sortByDebt_perm _).trans (hdeb.trans (sortByDebt_perm _).symm))
      (sortByDebt_sorted _) (sortByDebt_sorted _) ?_
    exact (((sortByDebt_perm _).map (fun e => e.debt.toRat)).nodup_iff).2
      (debitorsOf_values_nodup l1 hndv)
  unfold settleFrom
  rw [hsc, hsd]

/-- Enumeration of per-user totals 10, 40, 40 in map order a, b, c. -/
def run1 : List (String × Dec) := [("@a", ⟨10, 0⟩), ("@b", ⟨40, 0⟩), ("@c", ⟨40, 0⟩)]

/-- The same totals enumerated in map order a, c, b, as a different
HashMap iteration order of the same expense set may produce. -/
def run2 : List (String × Dec) := [("@a", ⟨10, 0⟩), ("@c", ⟨40, 0⟩), ("@b", ⟨40, 0⟩)]

/-- C3 counterexample: the claim states two runs on the same entries
produce the identical transfer list, with ties broken by handle.  The
totals 10, 40, 40 give two creditors tied at balance 10; the comparator
of bot.rs line 338 compares only debt values, so the tie is broken by
HashMap enumeration order and the two runs produce different lists. -/
theorem C3_counterexample :
    run1.Perm run2 ∧ settleFrom run1 ≠ settleFrom run2 := by
  constructor
  · exact List.Perm.cons _ (List.Perm.swap _ _ _)
  · decide

/-- C3 witness: determinism applied to the distinct totals 1 and 2. -/
theorem C3_amended_deterministic_witness :
    ([("@a", (⟨1, 0⟩ : Dec)), ("@b", ⟨2, 0⟩)] : List (String × Dec)).Perm
        [("@b", ⟨2, 0⟩), ("@a", ⟨1, 0⟩)] ∧
      ([("@a", (⟨1, 0⟩ : Dec)), ("@b", ⟨2, 0⟩)] : List (String × Dec)).Pairwise
        (fun p q => p.2.beq q.2 = false) ∧
      settleFrom [("@a", ⟨1, 0⟩), ("@b", ⟨2, 0⟩)]
        = settleFrom [("@b", ⟨2, 0⟩), ("@a", ⟨1, 0⟩)] :=
  ⟨by decide, by decide, C3_amended_deterministic _ _ (by decide) (by decide)⟩

/-!
Conversation state machine, embedded from src/bot.rs (dispatch tree of
run, lines 69-133, and the individual handlers) together with the store
operations of src/db.rs and src/controller.rs that they invoke.  One
processed message is modelled by the pure function step below: it
receives the store contents, the current dialogue state, the optional
message text (None models a non-text message) and the optional sender
username (None models a message whose author or author username the
transport cannot provide), and returns the next state, the replies sent,
the new store contents and whether the handler returned an error (which
the dispatcher only logs, sending nothing to the user).
-/

/-- The bot commands of bot.rs lines 15-35. -/
inductive Command
  | Help
  | CreateGroup
  | AddMemberToGroup
  | AddExpense
  | ListExpensesInGroup
  | ListMyGroups
  | Cancel
deriving DecidableEq

/-- Command parsing as performed by teloxide filter_command with the
lowercase rename rule, for the bare slash texts.  teloxide also accepts
a command addressed to the bot, such as /cancel@botname, but only when
the mention equals the runtime bot username, which is outside the
model; those texts, and argument-suffixed forms, are instead excluded
from the malformed-input domain below via isCancelText. -/
def parseCommand (t : String) : Option Command :=
  if t = "/help" then some Command.Help
  else if t = "/creategroup" then some Command.CreateGroup
  else if t = "/addmembertogroup" then some Command.AddMemberToGroup
  else if t = "/addexpense" then some Command.AddExpense
  else if t = "/listexpensesingroup" then some Command.ListExpensesInGroup
  else if t = "/listmygroups" then some Command.ListMyGroups
  else if t = "/cancel" then some Command.Cancel
  else none

/-- The dialogue states of bot.rs lines 37-59, with the per-state data
they carry (the source spelling RecieveAmountSpent is kept). -/
inductive ChatState
  | Start
  | ReceiveGroupIdForExpense
  | RecieveAmountSpent (group_id : Int)
  | ReceiveNote (group_id : Int) (amount : Dec)
  | ReceiveGroupName
  | ReceiveGroupIdForAddMember
  | ReceiveUsername (group_id : Int)
  | ReceiveGroupIdForExpensesList
deriving DecidableEq

/-- Contents of the sqlite store behind src/db.rs: groups (id, name)
with the id the store will assign next, the user table, the membership
table and the expense table. -/
structure Store where
  nextGroupId : Int
  groups : List (Int × String)
  users : List String
  userGroups : List (String × Int)
  expenses : List ExpenseRow
deriving DecidableEq

/-- db.rs get_group_by_id: the group row with the given id. -/
def Store.getGroupById (s : Store) (gid : Int) : Option (Int × String) :=
  s.groups.find? (fun g => g.1 == gid)

/-- db.rs get_users_in_group: membership rows for the group resolved
against the user table. -/
def Store.getUsersInGroup (s : Store) (gid : Int) : List String :=
  s.users.filter
    (fun u => ((s.userGroups.filter (fun ug => ug.2 == gid)).map Prod.fst).contains u)

/-- controller.rs user_is_in_group: some user of the group has the
given username. -/
def Store.userIsInGroup (s : Store) (username : String) (gid : Int) : Bool :=
  (s.getUsersInGroup gid).any (fun u => u == username)

/-- db.rs get_expenses_in_group. -/
def Store.getExpensesInGroup (s : Store) (gid : Int) : List ExpenseRow :=
  s.expenses.filter (fun e => e.groupId == gid)

/-- db.rs get_user_groups: the groups whose id appears in a membership
row of the given username. -/
def Store.getUserGroups (s : Store) (username : String) : List (Int × String) :=
  s.groups.filter
    (fun g => ((s.userGroups.filter (fun ug => ug.1 == username)).map Prod.snd).contains g.1)

/-- db.rs insert_group: the store assigns the id. -/
def Store.insertGroup (s : Store) (name : String) : Store × (Int × String) :=
  (⟨s.nextGroupId + 1, s.groups ++ [(s.nextGroupId, name)], s.users, s.userGroups, s.expenses⟩,
   (s.nextGroupId, name))

/-- Insertion into the user table; the username is the primary key, so
inserting an existing username fails with a constraint error. -/
def Store.insertUser (s : Store) (u : String) : Except String Store :=
  if s.users.contains u then Except.error "UNIQUE constraint failed: user.username"
  else Except.ok ⟨s.nextGroupId, s.groups, s.users ++ [u], s.userGroups, s.expenses⟩

/-- Insertion into the membership table; the pair is unique, so
inserting an existing membership fails with a constraint error. -/
def Store.insertUserGroup (s : Store) (u : String) (gid : Int) : Except String Store :=
  if s.userGroups.contains (u, gid) then Except.error "UNIQUE constraint failed: user_group"
  else Except.ok ⟨s.nextGroupId, s.groups, s.users, s.userGroups ++ [(u, gid)], s.expenses⟩

/-- db.rs add_user_to_group (lines 130-150): both insertions are
attempted, and an error from either is only logged (tracing::error) and
otherwise discarded; the function always returns Ok. -/
def Store.addUserToGroup (s : Store) (gid : Int) (username : String) : Store :=
  let s1 := match s.insertUser username with
    | Except.ok s2 => s2
    | Except.error _ => s
  match s1.insertUserGroup username gid with
  | Except.ok s2 => s2
  | Except.error _ => s1

/-- db.rs insert_expense. -/
def Store.insertExpense (s : Store) (username : String) (amount : Dec) (gid : Int)
    (note : String) : Store :=
  ⟨s.nextGroupId, s.groups, s.users, s.userGroups,
   s.expenses ++ [⟨username, gid, amount, note⟩]⟩

/-- Numeric value of the digit characters of l, most significant first. -/
def digitsVal (l : List Char) : Nat :=
  l.foldl (fun acc c => acc * 10 + (c.toNat - 48)) 0

/-- Strips one optional leading sign, returning the sign and the rest. -/
def splitSign (l : List Char) : Int × List Char :=
  match l with
  | '-' :: rest => (-1, rest)
  | '+' :: rest => (1, rest)
  | l => (1, l)

/-- Model of str::parse::<i64>: optional sign, one or more digits, value
within the i64 range. -/
def parseI64 (t : String) : Option Int :=
  let sd := splitSign t.data
  if sd.2.isEmpty then none
  else if sd.2.all Char.isDigit then
    let v : Int := sd.1 * (digitsVal sd.2 : Nat)
    if -(2 ^ 63) ≤ v ∧ v ≤ 2 ^ 63 - 1 then some v else none
  else none

/-- Core of Decimal parsing, mirroring rust_decimal parse_str_radix_10:
digits are consumed greedily into the 96-bit mantissa; fractional digits
stop at scale 28 or when a further digit would overflow the mantissa,
whichever is first; when fractional digits remain unconsumed the result
is rounded away from zero if the first unconsumed digit is 5 or more
(rust_decimal inspects only that digit).  Integer digits that alone
overflow the mantissa are an error, and so is a round-up that itself
exceeds the mantissa bound (rust_decimal reports overflow there as
well). -/
def decOfDigits (sign : Int) (ip f : List Char) : Option Dec :=
  let kmax := min f.length 28
  let viable := (List.range (kmax + 1)).filter
    (fun k => digitsVal (ip ++ f.take k) ≤ maxMantissa)
  match viable.getLast? with
  | none => none
  | some k =>
    let m := digitsVal (ip ++ f.take k)
    match f.drop k with
    | [] => some ⟨sign * (m : Int), k⟩
    | d :: _ =>
      if 53 ≤ d.toNat then
        if m + 1 ≤ maxMantissa then some ⟨sign * ((m : Int) + 1), k⟩
        else none
      else some ⟨sign * (m : Int), k⟩

/-- Model of str::parse::<Decimal> (rust_decimal FromStr): optional
sign, digit-group underscores (accepted by rust_decimal and removed
here before parsing; the model is permissive about separator placement,
which can only shrink the malformed-input domain used below), digits
with at most one decimal point and at least one digit; excess
fractional digits beyond the precision are rounded, not rejected, via
decOfDigits. -/
def parseDecimal (t : String) : Option Dec :=
  let sd := splitSign t.data
  let body := sd.2.filter (fun c => c != '_')
  let intPart := body.takeWhile (fun c => c != '.')
  let rest := body.dropWhile (fun c => c != '.')
  let frac : Option (List Char) :=
    match rest with
    | [] => some []
    | _ :: r => if r.any (fun c => c == '.') then none else some r
  match frac with
  | none => none
  | some f =>
    if (intPart ++ f).isEmpty then none
    else if (intPart.all Char.isDigit) && (f.all Char.isDigit) then
      decOfDigits sd.1 intPart f
    else none

/-- Model of nickname.starts_with of bot.rs line 469: the first
character of the text. -/
def startsWithAt (t : String) : Bool :=
  match t.data with
  | [] => false
  | c :: _ => c == '@'

/-- Display of a Decimal (used in report texts): the mantissa with
scale fractional digits. -/
def Dec.toDisplay (a : Dec) : String :=
  let sign := if a.mantissa < 0 then "-" else ""
  let m := a.mantissa.natAbs
  if a.scale = 0 then sign ++ toString m
  else
    let p : Nat := 10 ^ a.scale
    let fs := toString (m % p)
    sign ++ toString (m / p) ++ "."
      ++ String.mk (List.replicate (a.scale - fs.length) '0') ++ fs

/-- bot.rs groups_to_pretty (lines 141-147). -/
def groupsToPretty (groups : List (Int × String)) : String :=
  String.intercalate ", " (groups.map (fun g => toString g.1 ++ " — `" ++ g.2 ++ "`\n"))

/-- Result of processing one message: next dialogue state, replies sent
to the chat, new store contents, and whether the handler returned Err
(the dispatcher then only logs; the user receives nothing more). -/
structure StepOut where
  state : ChatState
  replies : List String
  store : Store
  failed : Bool
deriving DecidableEq

/-- bot.rs get_author_username (lines 518-530): the sender username
prefixed with @, or an error when the transport provides none. -/
def getAuthorUsername (sender : Option String) : Except String String :=
  match sender with
  | some u => Except.ok ("@" ++ u)
  | none => Except.error "Sorry, I can not detect your username"

/-- Header of the teloxide-generated command descriptions of bot.rs
line 18 (the per-command lines are generated by the derive and are not
needed by any claim). -/
def helpText : String := "Splittea supports the following commands:"

/-- bot.rs cancel (lines 532-537): reply, then dialogue.exit, leaving
the chat at the default Start state; no store access. -/
def cancel (store : Store) : StepOut :=
  ⟨ChatState.Start, ["Canceled whatever you did"], store, false⟩

/-- bot.rs invalid_state (lines 587-594): reachable at Start for a
non-command message; no dialogue update, no store access. -/
def invalidState (store : Store) : StepOut :=
  ⟨ChatState.Start, ["Unable to handle the message. Type /help to see the usage."], store, false⟩

/-- bot.rs help (lines 135-139): sends the command descriptions, no
dialogue update. -/
def help (store : Store) : StepOut :=
  ⟨ChatState.Start, [helpText], store, false⟩

/-- bot.rs list_my_groups (lines 149-166). -/
def listMyGroups (store : Store) (sender : Option String) : StepOut :=
  match getAuthorUsername sender with
  | Except.error _ => ⟨ChatState.Start, [], store, true⟩
  | Except.ok username =>
    let groups := store.getUserGroups username
    if groups.isEmpty then
      ⟨ChatState.Start, ["You don\x27t belong to any group yet"], store, false⟩
    else
      ⟨ChatState.Start, ["Here are your groups:\n " ++ groupsToPretty groups], store, false⟩

/-- bot.rs create_group (lines 168-173). -/
def createGroup (store : Store) : StepOut :=
  ⟨ChatState.ReceiveGroupName, ["Pick a name for your group"], store, false⟩

/-- bot.rs receive_group_name (lines 175-192): any text is accepted as
the group name; the group is created and the caller added to it. -/
def receiveGroupName (store : Store) (text : Option String) (sender : Option String) : StepOut :=
  match text with
  | none => ⟨ChatState.ReceiveGroupName, [], store, false⟩
  | some groupName =>
    match getAuthorUsername sender with
    | Except.error _ => ⟨ChatState.ReceiveGroupName, [], store, true⟩
    | Except.ok username =>
      let created := store.insertGroup groupName
      ⟨ChatState.Start,
        ["Group `" ++ groupName ++ "` was successfully created and you\x27ve been added to it"],
        created.1.addUserToGroup created.2.1 username, false⟩

/-- bot.rs add_member_to_group (lines 194-219). -/
def addMemberToGroup (store : Store) (sender : Option String) : StepOut :=
  match getAuthorUsername sender with
  | Except.error _ => ⟨ChatState.Start, [], store, true⟩
  | Except.ok username =>
    let groups := store.getUserGroups username
    if groups.isEmpty then
      ⟨ChatState.Start, ["You don\x27t belong to any group yet"], store, false⟩
    else
      ⟨ChatState.ReceiveGroupIdForAddMember,
        ["Choose id of the group where you want to add a member:\n " ++ groupsToPretty groups],
        store, false⟩

/-- bot.rs add_expense (lines 221-241). -/
def addExpense (store : Store) (sender : Option String) : StepOut :=
  match getAuthorUsername sender with
  | Except.error _ => ⟨ChatState.Start, [], store, true⟩
  | Except.ok username =>
    let groups := store.getUserGroups username
    if groups.isEmpty then
      ⟨ChatState.Start, ["You don\x27t belong to any group yet"], store, false⟩
    else
      ⟨ChatState.ReceiveGroupIdForExpense,
        ["Choose id of the group you\x27d like to add the expense:\n " ++ groupsToPretty groups],
        store, false⟩

/-- bot.rs list_expenses_in_group (lines 539-561): note the dialogue is
updated to ReceiveGroupIdForExpensesList on both branches. -/
def listExpensesInGroup (store : Store) (sender : Option String) : StepOut :=
  match getAuthorUsername sender with
  | Except.error _ => ⟨ChatState.Start, [], store, true⟩
  | Except.ok username =>
    let groups := store.getUserGroups username
    if groups.isEmpty then
      ⟨ChatState.ReceiveGroupIdForExpensesList,
        ["You are not a member of any group, yet. You can create one with /creategroup"],
        store, false⟩
    else
      ⟨ChatState.ReceiveGroupIdForExpensesList,
        ["Good, choose id of one of your groups:\n " ++ groupsToPretty groups], store, false⟩

/-- bot.rs receive_group_id_for_add_member (lines 489-516). -/
def receiveGroupIdForAddMember (store : Store) (text : Option String)
    (sender : Option String) : StepOut :=
  match text with
  | none => ⟨ChatState.ReceiveGroupIdForAddMember, [], store, false⟩
  | some t =>
    match parseI64 t with
    | some gid =>
      match getAuthorUsername sender with
      | Except.error _ => ⟨ChatState.ReceiveGroupIdForAddMember, [], store, true⟩
      | Except.ok username =>
        if store.userIsInGroup username gid then
          ⟨ChatState.ReceiveUsername gid, ["Provide @username of that user: "], store, false⟩
        else
          ⟨ChatState.ReceiveGroupIdForAddMember, ["Please, provide id from the list: "],
            store, false⟩
    | none =>
      ⟨ChatState.ReceiveGroupIdForAddMember, ["Please, send an integer value: "], store, false⟩

/-- bot.rs receive_user_name (lines 456-487): the sender is needed for
Controller::from_msg; the membership write goes through db.rs
add_user_to_group, which swallows insertion errors. -/
def receiveUserName (store : Store) (gid : Int) (text : Option String)
    (sender : Option String) : StepOut :=
  match text with
  | none => ⟨ChatState.ReceiveUsername gid, [], store, false⟩
  | some nickname =>
    if nickname.data.isEmpty then
      ⟨ChatState.ReceiveUsername gid, ["Please, provide a username, starting from `@`:"],
        store, false⟩
    else if startsWithAt nickname then
      match sender with
      | none => ⟨ChatState.ReceiveUsername gid, [], store, true⟩
      | some _ =>
        ⟨ChatState.Start, ["User " ++ nickname ++ " has been successfully added to a group"],
          store.addUserToGroup gid nickname, false⟩
    else
      ⟨ChatState.ReceiveUsername gid, ["Please, provide a username, starting from `@`:"],
        store, false⟩

/-- bot.rs receive_group_id_for_expense (lines 243-275): an id that
parses but names no group makes the handler return Err via the anyhow
question-mark operator, so the user receives no message at all. -/
def receiveGroupIdForExpense (store : Store) (text : Option String)
    (sender : Option String) : StepOut :=
  match text with
  | none => ⟨ChatState.ReceiveGroupIdForExpense, [], store, false⟩
  | some t =>
    match parseI64 t with
    | some gid =>
      match sender with
      | none => ⟨ChatState.ReceiveGroupIdForExpense, [], store, true⟩
      | some _ =>
        match store.getGroupById gid with
        | none => ⟨ChatState.ReceiveGroupIdForExpense, [], store, true⟩
        | some g =>
          ⟨ChatState.RecieveAmountSpent gid,
            ["You want to add an expense to a group `" ++ g.2
              ++ "`.\n Now, type the amount you spent:"], store, false⟩
    | none => ⟨ChatState.ReceiveGroupIdForExpense, ["Please, send a decimal value"], store, false⟩

/-- bot.rs receive_amount_spent (lines 429-454). -/
def receiveAmountSpent (store : Store) (gid : Int) (text : Option String) : StepOut :=
  match text with
  | none => ⟨ChatState.RecieveAmountSpent gid, [], store, false⟩
  | some t =>
    match parseDecimal t with
    | some amount =>
      if Dec.zero.blt amount then
        ⟨ChatState.ReceiveNote gid amount, ["Provide some note:"], store, false⟩
      else
        ⟨ChatState.RecieveAmountSpent gid, ["Please, provide some positive amount:"],
          store, false⟩
    | none =>
      ⟨ChatState.RecieveAmountSpent gid, ["Please, provide some decimal value:"], store, false⟩

/-- bot.rs receive_note (lines 408-427). -/
def receiveNote (store : Store) (gid : Int) (amount : Dec) (text : Option String)
    (sender : Option String) : StepOut :=
  match text with
  | none => ⟨ChatState.ReceiveNote gid amount, [], store, false⟩
  | some note =>
    match getAuthorUsername sender with
    | Except.error _ => ⟨ChatState.ReceiveNote gid amount, [], store, true⟩
    | Except.ok username =>
      ⟨ChatState.Start, ["The expense has been added"],
        store.insertExpense username amount gid note, false⟩

/-- The report text of bot.rs lines 374-393.  The HashMap iteration
order is modelled as first-insertion order; order sensitivity of the
settlement itself is covered by the permutation-quantified theorems. -/
def reportFor (expenses : List ExpenseRow) : String :=
  let txs := settleFrom (userSpentOf expenses)
  let base := "Group debt state:\n"
  let base := if txs.isEmpty then base ++ "😊No debt in this group😊" else base
  let base := txs.foldl (fun acc tx =>
    acc ++ "😑" ++ tx.1 ++ " owes " ++ tx.2.2.toDisplay ++ " to " ++ tx.2.1 ++ "😑\n") base
  let base := base ++ "\n --- \n Overall expenses in group:\n"
  expenses.foldl (fun acc e =>
    acc ++ e.username ++ " spent " ++ e.amount.toDisplay ++ " with note: " ++ e.note ++ "\n") base

/-- bot.rs receive_group_id_for_expenses_list (lines 283-406): the
expenses are fetched directly by the parsed id with no group lookup; a
text that does not parse as an integer is ignored entirely (no else
branch in the source); on a parsed id the dialogue always returns to
Start. -/
def receiveGroupIdForExpensesList (store : Store) (text : Option String)
    (sender : Option String) : StepOut :=
  match text with
  | none => ⟨ChatState.ReceiveGroupIdForExpensesList, [], store, false⟩
  | some t =>
    match parseI64 t with
    | some gid =>
      match sender with
      | none => ⟨ChatState.ReceiveGroupIdForExpensesList, [], store, true⟩
      | some _ =>
        let expenses := store.getExpensesInGroup gid
        if expenses.isEmpty then
          ⟨ChatState.Start, ["There are no expenses yet in this group"], store, false⟩
        else
          ⟨ChatState.Start, [reportFor expenses], store, false⟩
    | none => ⟨ChatState.ReceiveGroupIdForExpensesList, [], store, false⟩

/-- Dispatch of the commands available at Start (bot.rs lines 82-93). -/
def dispatchCommand (store : Store) (c : Command) (sender : Option String) : StepOut :=
  match c with
  | Command.Help => help store
  | Command.CreateGroup => createGroup store
  | Command.AddMemberToGroup => addMemberToGroup store sender
  | Command.AddExpense => addExpense store sender
  | Command.ListExpensesInGroup => listExpensesInGroup store sender
  | Command.ListMyGroups => listMyGroups store sender
  | Command.Cancel => cancel store

/-- Dispatch of a non-command (or non-Start command) message by state
(bot.rs lines 95-116): every non-Start state has its endpoint; at Start
a message that is not a command falls through to invalid_state. -/
def stateHandler (store : Store) (st : ChatState) (text : Option String)
    (sender : Option String) : StepOut :=
  match st with
  | ChatState.Start => invalidState store
  | ChatState.ReceiveGroupName => receiveGroupName store text sender
  | ChatState.ReceiveGroupIdForAddMember => receiveGroupIdForAddMember store text sender
  | ChatState.ReceiveUsername gid => receiveUserName store gid text sender
  | ChatState.ReceiveGroupIdForExpense => receiveGroupIdForExpense store text sender
  | ChatState.RecieveAmountSpent gid => receiveAmountSpent store gid text
  | ChatState.ReceiveNote gid amount => receiveNote store gid amount text sender
  | ChatState.ReceiveGroupIdForExpensesList => receiveGroupIdForExpensesList store text sender

/-- The command carried by the message text, if any. -/
def cmdOf (text : Option String) : Option Command :=
  match text with
  | some t => parseCommand t
  | none => none

/-- One message processed by the dispatch tree of bot.rs lines 81-119:
a cancel command is handled from every state; any other command
dispatches only at Start and otherwise falls through, as plain text, to
the handler of the current state; a non-command message goes to the
handler of the current state, or to invalid_state at Start. -/
def step (store : Store) (st : ChatState) (text : Option String)
    (sender : Option String) : StepOut :=
  match cmdOf text with
  | some Command.Cancel => cancel store
  | some c =>
    match st with
    | ChatState.Start => dispatchCommand store c sender
    | s => stateHandler store s text sender
  | none => stateHandler store st text sender

/-- C9: from every conversation state and for every store and sender,
the cancel command is accepted, the session is reset to Start, exactly
the cancellation reply is sent, and the store is untouched. -/
theorem C9_cancel_resets (store : Store) (st : ChatState) (sender : Option String) :
    step store st (some "/cancel") sender
      = ⟨ChatState.Start, ["Canceled whatever you did"], store, false⟩ := by
  have h : cmdOf (some "/cancel") = some Command.Cancel := by decide
  unfold step
  rw [h]
  rfl

/-- A message at a non-Start state that is not the cancel command is
handled by the handler of the current state (dispatch tree of bot.rs
lines 81-119: non-cancel commands do not dispatch outside Start and
reach the state handler as plain text). -/
lemma step_at_state_eq_handler (store : Store) (st : ChatState) (t : String)
    (sender : Option String) (hst : st ≠ ChatState.Start)
    (hc : parseCommand t ≠ some Command.Cancel) :
    step store st (some t) sender = stateHandler store st (some t) sender := by
  have hcc : cmdOf (some t) = parseCommand t := rfl
  unfold step
  rw [hcc]
  cases h : parseCommand t with
  | none => rfl
  | some c =>
    cases c
    case Cancel => exact absurd h hc
    all_goals cases st <;> first | exact absurd rfl hst | rfl

/-- A message parsing as the cancel command is handled by cancel from
every state (bot.rs line 93). -/
lemma step_parse_cancel (store : Store) (st : ChatState) (t : String)
    (sender : Option String) (hc : parseCommand t = some Command.Cancel) :
    step store st (some t) sender = cancel store := by
  show (match cmdOf (some t) with
    | some Command.Cancel => cancel store
    | some c =>
      match st with
      | ChatState.Start => dispatchCommand store c sender
      | s => stateHandler store s (some t) sender
    | none => stateHandler store st (some t) sender) = cancel store
  rw [show cmdOf (some t) = some Command.Cancel from hc]

/-- Store in which user bob is already a member of group 1, so both
inserts performed by add_user_to_group fail with constraint errors. -/
def storeC7 : Store := ⟨2, [(1, "g")], ["@bob"], [("@bob", 1)], []⟩

/-- C7: the claim states a failing store operation leaves the session
state unchanged, informs the user of the failure and does not report
success.  db.rs add_user_to_group discards both insertion errors and
returns Ok, so on a store where both inserts fail the add-member flow
replies that the user has been successfully added, advances the session
to Start, and reports no failure. -/
theorem C7_store_failure_reports_success :
    storeC7.insertUser "@bob" = Except.error "UNIQUE constraint failed: user.username" ∧
      storeC7.insertUserGroup "@bob" 1 = Except.error "UNIQUE constraint failed: user_group" ∧
      step storeC7 (ChatState.ReceiveUsername 1) (some "@bob") (some "alice")
        = ⟨ChatState.Start, ["User @bob has been successfully added to a group"],
            storeC7, false⟩ :=
  ⟨rfl, rfl, by decide⟩

/-- Store with one group (id 1) and no expenses; group 999 does not
exist. -/
def storeC6 : Store := ⟨2, [(1, "trip")], [], [], []⟩

/-- The same store with a group 999 added. -/
def storeC6g : Store := ⟨1000, [(1, "trip"), (999, "ghost")], [], [], []⟩

/-- C6 counterexample: the claim states the list-expenses flow resolves
the group id against the store and surfaces a group-not-found error for
a nonexistent id.  Requesting the report for the nonexistent group 999
yields the ordinary no-expenses reply and returns to Start, exactly as
it does when group 999 exists: no lookup happens and no error is
surfaced. -/
theorem C6_counterexample :
    storeC6.getGroupById 999 = none ∧
      step storeC6 ChatState.ReceiveGroupIdForExpensesList (some "999") (some "alice")
        = ⟨ChatState.Start, ["There are no expenses yet in this group"], storeC6, false⟩ ∧
      (step storeC6g ChatState.ReceiveGroupIdForExpensesList (some "999") (some "alice")).replies
        = (step storeC6 ChatState.ReceiveGroupIdForExpensesList (some "999")
            (some "alice")).replies := by
  decide

/-- The store with its group table replaced. -/
def Store.withGroups (s : Store) (gs : List (Int × String)) : Store :=
  ⟨s.nextGroupId, gs, s.users, s.userGroups, s.expenses⟩

/-- The list-expenses handler reads only the expense table: its state
and replies do not depend on the group table. -/
lemma receiveGroupIdForExpensesList_no_groups (store : Store)
    (gs gs2 : List (Int × String)) (text : Option String) (sender : Option String) :
    (receiveGroupIdForExpensesList (store.withGroups gs) text sender).state
        = (receiveGroupIdForExpensesList (store.withGroups gs2) text sender).state
      ∧ (receiveGroupIdForExpensesList (store.withGroups gs) text sender).replies
        = (receiveGroupIdForExpensesList (store.withGroups gs2) text sender).replies := by
  cases text with
  | none => exact ⟨rfl, rfl⟩
  | some t =>
    simp only [receiveGroupIdForExpensesList]
    cases hp : parseI64 t with
    | none => simp [hp]
    | some gid =>
      simp only [hp]
      cases sender with
      | none => exact ⟨rfl, rfl⟩
      | some u =>
        simp only
        by_cases hemp : ((Store.withGroups store gs).getExpensesInGroup gid).isEmpty = true
        · have hemp2 : ((Store.withGroups store gs2).getExpensesInGroup gid).isEmpty = true :=
            hemp
          rw [if_pos hemp, if_pos hemp2]
          exact ⟨rfl, rfl⟩
        · have hemp2 : ¬ ((Store.withGroups store gs2).getExpensesInGroup gid).isEmpty = true :=
            hemp
          rw [if_neg hemp, if_neg hemp2]
          exact ⟨rfl, rfl⟩

/-- C6 amended: the list-expenses handler never consults the group
table: for any message and sender, its resulting state and replies are
unchanged under arbitrary replacement of the group table, so the report
carries no group name resolved from the store and a nonexistent id
produces the same reply as an existing group with no expenses. -/
theorem C6_amended_no_group_lookup (store : Store) (gs gs2 : List (Int × String))
    (text : Option String) (sender : Option String) :
    (step (store.withGroups gs) ChatState.ReceiveGroupIdForExpensesList text sender).state
        = (step (store.withGroups gs2) ChatState.ReceiveGroupIdForExpensesList text sender).state
      ∧ (step (store.withGroups gs) ChatState.ReceiveGroupIdForExpensesList text sender).replies
        = (step (store.withGroups gs2) ChatState.ReceiveGroupIdForExpensesList
            text sender).replies := by
  cases text with
  | none => exact receiveGroupIdForExpensesList_no_groups store gs gs2 none sender
  | some t =>
    by_cases hc : parseCommand t = some Command.Cancel
    · rw [step_parse_cancel _ _ _ _ hc, step_parse_cancel _ _ _ _ hc]
      exact ⟨rfl, rfl⟩
    · rw [step_at_state_eq_handler _ _ _ _ (by decide) hc,
        step_at_state_eq_handler _ _ _ _ (by decide) hc]
      exact receiveGroupIdForExpensesList_no_groups store gs gs2 (some t) sender

/-- The first whitespace-delimited token of the text. -/
def firstToken (t : String) : List Char :=
  t.data.takeWhile (fun c => c != ' ')

/-- The token with any @mention suffix removed. -/
def stripMention (l : List Char) : List Char :=
  l.takeWhile (fun c => c != '@')

/-- Texts that teloxide may dispatch as the cancel command for some
runtime bot username: the first token, with any @mention suffix
removed, is /cancel.  This covers the bare /cancel, the bot-addressed
/cancel@botname, and argument-suffixed forms; whether a mention-suffixed
form actually cancels depends on the runtime bot username, which is
outside the model, so all such texts are excluded from the
malformed-input domain rather than classified either way. -/
def isCancelText (t : String) : Bool :=
  stripMention (firstToken t) == "/cancel".data

/-- The inputs the specification calls malformed for each data-entry
state, for a sender whose formatted handle is author: a non-text
message; at the integer states a text that does not parse as an i64; at
the add-member state additionally an id of a group the caller is not a
member of; at the add-expense state additionally an id naming no group;
at the amount state a text that is not a positive decimal; at the
username state an empty text or one not starting with @.  A text the
dispatcher may intercept as the cancel command (isCancelText) is
excluded: it is not validated by the data-entry states.  The free-text
states ReceiveGroupName and ReceiveNote accept any text. -/
def malformedInput (store : Store) (author : String) (st : ChatState)
    (text : Option String) : Bool :=
  match text with
  | none => true
  | some t =>
    !(isCancelText t) &&
      match st with
      | ChatState.ReceiveGroupIdForAddMember =>
        match parseI64 t with
        | none => true
        | some gid => !(store.userIsInGroup author gid)
      | ChatState.ReceiveUsername _ => t.data.isEmpty || !(startsWithAt t)
      | ChatState.ReceiveGroupIdForExpense =>
        match parseI64 t with
        | none => true
        | some gid => (store.getGroupById gid).isNone
      | ChatState.RecieveAmountSpent _ =>
        match parseDecimal t with
        | none => true
        | some q => !(Dec.zero.blt q)
      | ChatState.ReceiveGroupIdForExpensesList => (parseI64 t).isNone
      | _ => false

/-- The only bare text parsing as the cancel command is /cancel. -/
lemma parseCommand_cancel_eq (t : String)
    (h : parseCommand t = some Command.Cancel) : t = "/cancel" := by
  unfold parseCommand at h
  split_ifs at h with h1 h2 h3 h4 h5 h6 h7
  · exact absurd h (by decide)
  · exact absurd h (by decide)
  · exact absurd h (by decide)
  · exact absurd h (by decide)
  · exact absurd h (by decide)
  · exact absurd h (by decide)
  · exact h7

/-- C8 amended: a malformed input at a data-entry state leaves the
session state and the store unchanged and produces at most one reply;
it is not always exactly one retry prompt: a non-text message, an
unparsable integer at the list-expenses state, and an id naming no
group at the add-expense state produce no user-facing reply at all (the
last only logs the propagated error). -/
theorem C8_amended_malformed_keeps_state (store : Store) (st : ChatState)
    (text : Option String) (u : String) (hst : st ≠ ChatState.Start)
    (hm : malformedInput store ("@" ++ u) st text = true) :
    (step store st text (some u)).state = st
      ∧ (step store st text (some u)).replies.length ≤ 1
      ∧ (step store st text (some u)).store = store := by
  cases text with
  | none =>
    cases st with
    | Start => exact absurd rfl hst
    | ReceiveGroupIdForExpense => exact ⟨rfl, Nat.zero_le 1, rfl⟩
    | RecieveAmountSpent gid => exact ⟨rfl, Nat.zero_le 1, rfl⟩
    | ReceiveNote gid amount => exact ⟨rfl, Nat.zero_le 1, rfl⟩
    | ReceiveGroupName => exact ⟨rfl, Nat.zero_le 1, rfl⟩
    | ReceiveGroupIdForAddMember => exact ⟨rfl, Nat.zero_le 1, rfl⟩
    | ReceiveUsername gid => exact ⟨rfl, Nat.zero_le 1, rfl⟩
    | ReceiveGroupIdForExpensesList => exact ⟨rfl, Nat.zero_le 1, rfl⟩
  | some t =>
    simp only [malformedInput] at hm
    rw [Bool.and_eq_true] at hm
    obtain ⟨h1, h2⟩ := hm
    have hcne : parseCommand t ≠ some Command.Cancel := by
      intro hcc
      have ht := parseCommand_cancel_eq t hcc
      subst ht
      exact absurd h1 (by decide)
    rw [step_at_state_eq_handler store st t (some u) hst hcne]
    cases st with
    | Start => exact absurd rfl hst
    | ReceiveGroupName => simp at h2
    | ReceiveNote gid amount => simp at h2
    | ReceiveGroupIdForAddMember =>
      cases hp : parseI64 t with
      | none =>
        refine ⟨?_, ?_, ?_⟩ <;>
          simp [stateHandler, receiveGroupIdForAddMember, hp]
      | some gid =>
        simp only [hp] at h2
        simp only [Bool.not_eq_true'] at h2
        refine ⟨?_, ?_, ?_⟩ <;>
          simp [stateHandler, receiveGroupIdForAddMember, hp, getAuthorUsername, h2]
    | ReceiveUsername gid =>
      by_cases he : t.data.isEmpty = true
      · refine ⟨?_, ?_, ?_⟩ <;> simp [stateHandler, receiveUserName, he]
      · have he2 : t.data.isEmpty = false := by
          revert he
          cases t.data.isEmpty <;> simp
        have hsw : startsWithAt t = false := by
          rw [Bool.or_eq_true] at h2
          rcases h2 with h2 | h2
          · exact absurd h2 he
          · simpa [Bool.not_eq_true'] using h2
        refine ⟨?_, ?_, ?_⟩ <;> simp [stateHandler, receiveUserName, he2, hsw]
    | ReceiveGroupIdForExpense =>
      cases hp : parseI64 t with
      | none =>
        refine ⟨?_, ?_, ?_⟩ <;> simp [stateHandler, receiveGroupIdForExpense, hp]
      | some gid =>
        simp only [hp] at h2
        rw [Option.isNone_iff_eq_none] at h2
        refine ⟨?_, ?_, ?_⟩ <;> simp [stateHandler, receiveGroupIdForExpense, hp, h2]
    | RecieveAmountSpent gid =>
      cases hq : parseDecimal t with
      | none =>
        refine ⟨?_, ?_, ?_⟩ <;> simp [stateHandler, receiveAmountSpent, hq]
      | some q =>
        simp only [hq] at h2
        simp only [Bool.not_eq_true'] at h2
        refine ⟨?_, ?_, ?_⟩ <;> simp [stateHandler, receiveAmountSpent, hq, h2]
    | ReceiveGroupIdForExpensesList =>
      rw [Option.isNone_iff_eq_none] at h2
      refine ⟨?_, ?_, ?_⟩ <;> simp [stateHandler, receiveGroupIdForExpensesList, h2]

/-- An empty store. -/
def emptyStore : Store := ⟨1, [], [], [], []⟩

/-- C8 counterexample: the claim states a malformed input produces
exactly one retry prompt.  At ReceiveGroupIdForExpensesList the source
has no else branch for a failed integer parse (bot.rs lines 288-403):
the text abc leaves the state unchanged but produces no reply at all. -/
theorem C8_counterexample :
    malformedInput emptyStore "@bob" ChatState.ReceiveGroupIdForExpensesList
        (some "abc") = true ∧
      (step emptyStore ChatState.ReceiveGroupIdForExpensesList (some "abc")
          (some "bob")).state = ChatState.ReceiveGroupIdForExpensesList ∧
      (step emptyStore ChatState.ReceiveGroupIdForExpensesList (some "abc")
          (some "bob")).replies = [] := by
  decide

/-- C8 witness: the amended theorem applied to the non-decimal text xyz
at the amount-entry state. -/
theorem C8_amended_malformed_keeps_state_witness :
    (ChatState.RecieveAmountSpent 1 ≠ ChatState.Start) ∧
      malformedInput emptyStore ("@" ++ "bob") (ChatState.RecieveAmountSpent 1)
        (some "xyz") = true ∧
      ((step emptyStore (ChatState.RecieveAmountSpent 1) (some "xyz") (some "bob")).state
          = ChatState.RecieveAmountSpent 1
        ∧ (step emptyStore (ChatState.RecieveAmountSpent 1) (some "xyz")
            (some "bob")).replies.length ≤ 1
        ∧ (step emptyStore (ChatState.RecieveAmountSpent 1) (some "xyz")
            (some "bob")).store = emptyStore) :=
  ⟨by decide, by decide,
    C8_amended_malformed_keeps_state emptyStore (ChatState.RecieveAmountSpent 1)
      (some "xyz") "bob" (by decide) (by decide)⟩
